import Mathlib

/-!
GSOD station importer (`import/gsod.go`)

A shallow embedding of the station observation parser and availability audit of
`import/gsod.go`, followed by the properties proved about it.

Modelling conventions.

* A Go string is a list of bytes.  A Go byte slice is a `ByteSlice`: its elements, and the
  bytes of its backing array that lie beyond its length, up to its capacity.  The slice
  expression `s[lo:hi]` of a byte slice is bounded by the capacity, that of a string by the
  length.
* A `float64` value is an `F64`: not-a-number, an infinity, or a signed mantissa and a binary
  exponent.  Every arithmetic operation yields the value of the format nearest to the exact
  result, ties to the even mantissa.
* `int16` values are integers reduced into `[-32768, 32767]` after every operation.
* The two ways the Go program stops early, a run-time panic and `log.Fatal`, are values of
  `Abort`; a function that may stop early returns `Except Abort _`.
* Library functions of the Go distribution and the two external collaborators (the SQL
  transaction and the file system) are the fields of `Lib`; every theorem holds for all of them.
  `refLib` is one concrete choice, used to evaluate the program on concrete inputs.
* The effects of the program are recorded in `World`: the INSERT rows issued on the
  transaction and the files handed to `ioutil.WriteFile`, both in program order.
-/

namespace Gsod

/-- A Go string, or the elements of a byte slice. -/
abbrev Bytes := List UInt8

/-- The bytes of an ASCII string literal. -/
def ascii (s : String) : Bytes := s.toList.map (fun c => UInt8.ofNat c.toNat)

/-- A Go byte slice: `bytes` are its elements, `spare` the bytes of the backing array after
its last element, as far as the capacity reaches. -/
structure ByteSlice where
  bytes : Bytes
  spare : Bytes
deriving DecidableEq

/-- The bytes a slice expression can reach: the elements followed by the spare capacity. -/
def ByteSlice.backing (s : ByteSlice) : Bytes := s.bytes ++ s.spare

/-- Reasons for which the program stops before completing. -/
inductive Abort where
  /-- Run-time error: index out of range. -/
  | indexOutOfRange
  /-- Run-time error: slice bounds out of range. -/
  | sliceOutOfRange
  /-- The call `log.Fatal(err)` after `strconv.ParseFloat` failed on the given text. -/
  | parseFloatFailed (text : Bytes)
  /-- The call `log.Fatal("wrong unit")`. -/
  | wrongUnit
  /-- The call `log.Fatal(err)` after `tx.Exec` failed. -/
  | execFailed
  /-- The call `log.Fatal(err)` after `ioutil.WriteFile` failed. -/
  | writeFileFailed
deriving DecidableEq, Repr

instance instDecidableEqExcept {ε α : Type} [DecidableEq ε] [DecidableEq α] :
    DecidableEq (Except ε α)
  | .ok a, .ok b =>
    if h : a = b then isTrue (by rw [h]) else isFalse (fun h' => h (by cases h'; rfl))
  | .error a, .error b =>
    if h : a = b then isTrue (by rw [h]) else isFalse (fun h' => h (by cases h'; rfl))
  | .ok _, .error _ => isFalse (fun h => by cases h)
  | .error _, .ok _ => isFalse (fun h => by cases h)

/-- A `float64` value (IEEE 754 binary64): not-a-number, an infinity, or the finite number
`(-1)^neg * m * 2^e`. In the operations below `a <<< k` is `a * 2 ^ k`. -/
inductive F64 where
  | nan
  | inf (neg : Bool)
  | fin (neg : Bool) (m : Nat) (e : Int)
deriving DecidableEq, Repr

namespace F64

/-- The values of the format: less than 53 bits of mantissa, exponent between -1074 and 971,
and the mantissa normalised unless the exponent is the least one. -/
def valid : F64 → Bool
  | nan => true
  | inf _ => true
  | fin _ m e => decide (m < 2 ^ 53 ∧ -1074 ≤ e ∧ e ≤ 971 ∧ (2 ^ 52 ≤ m ∨ e = -1074))

/-- The least `s` such that `q / 2 ^ s < 2 ^ 53`, searched with the given fuel. -/
def excess : Nat → Nat → Nat
  | 0, _ => 0
  | fuel + 1, q => if q < 2 ^ 53 then 0 else excess fuel (q / 2) + 1

/-- The integer nearest to `n / d`, the even one of two equally near. -/
def nearest (n d : Nat) : Nat :=
  if d < 2 * (n % d) ∨ (2 * (n % d) = d ∧ n / d % 2 = 1) then n / d + 1 else n / d

/-- The value `(-1)^neg * m * 2^e` for `m ≤ 2 ^ 53`: a mantissa of `2 ^ 53` moves to the
next exponent, and an exponent above 971 gives an infinity. -/
def pack (neg : Bool) (m : Nat) (e : Int) : F64 :=
  if m = 2 ^ 53 then
    if 971 < e + 1 then inf neg else fin neg (2 ^ 52) (e + 1)
  else
    if 971 < e then inf neg else fin neg m e

/-- Rounding of the non-negative rational `num / den` to the nearest value of the format,
ties to the even mantissa, with the given sign. The exponent is the least one, -1074, raised
by as much as brings the mantissa below `2 ^ 53`. -/
def round (neg : Bool) (num den : Nat) : F64 :=
  let n := num <<< 1074
  let shift := excess (n / den) (n / den)
  pack neg (nearest n (den <<< shift)) ((shift : Int) - 1074)

/-- The comparison `v == 0`. -/
def isZero : F64 → Bool
  | fin _ m _ => decide (m = 0)
  | _ => false

/-- Negation. -/
def negate : F64 → F64
  | nan => nan
  | inf s => inf (!s)
  | fin s m e => fin (!s) m e

/-- The product `x * y`. -/
def mul : F64 → F64 → F64
  | nan, _ => nan
  | _, nan => nan
  | inf s, inf t => inf (xor s t)
  | inf s, fin t m _ => if m = 0 then nan else inf (xor s t)
  | fin s m _, inf t => if m = 0 then nan else inf (xor s t)
  | fin s m e, fin t n f =>
    round (xor s t) ((m * n) <<< (e + f).toNat) (1 <<< (-(e + f)).toNat)

/-- The quotient `x / y`. -/
def div : F64 → F64 → F64
  | nan, _ => nan
  | _, nan => nan
  | inf _, inf _ => nan
  | inf s, fin t _ _ => inf (xor s t)
  | fin s _ _, inf t => fin (xor s t) 0 (-1074)
  | fin s m e, fin t n f =>
    if n = 0 then
      if m = 0 then nan else inf (xor s t)
    else
      round (xor s t) (m <<< (e - f).toNat) (n <<< (f - e).toNat)

/-- The sum `x + y`. -/
def add : F64 → F64 → F64
  | nan, _ => nan
  | _, nan => nan
  | inf s, inf t => if s = t then inf s else nan
  | inf s, fin _ _ _ => inf s
  | fin _ _ _, inf t => inf t
  | fin s m e, fin t n f =>
    let g := min e f
    let a : Int := (if s then -1 else 1) * ((m <<< (e - g).toNat : Nat) : Int)
    let b : Int := (if t then -1 else 1) * ((n <<< (f - g).toNat : Nat) : Int)
    let c := a + b
    if c = 0 then fin (s && t) 0 (-1074)
    else round (decide (c < 0)) (c.natAbs <<< g.toNat) (1 <<< (-g).toNat)

/-- The difference `x - y`. -/
def sub (x y : F64) : F64 := add x (negate y)

/-- The value of a decimal constant `num / den`. -/
def lit (num den : Nat) : F64 := round false num den

/-- The rational number a finite value stands for. -/
def toRat : F64 → Option ℚ
  | fin neg m e => some ((if neg then -1 else 1) * (m : ℚ) * (2 : ℚ) ^ e)
  | _ => none

end F64

/-- A value of static type `interface{}` as it occurs in the fields of `Line`. -/
inductive Value where
  | nil
  | float64 (v : F64)
  | int16 (n : Int)
deriving DecidableEq

/-- The method `IsNil` of a reflected interface value. -/
def Value.IsNil : Value → Bool
  | .nil => true
  | _ => false

/-- The struct `Line`. -/
structure Line where
  date : Bytes
  MeanTemperature : Value
  MeanDewPoint : Value
  MeanSeaPressure : Value
  MeanPressure : Value
  MeanVisibility : Value
  MeanWindSpeed : Value
  MaxTemperature : Value
  MinTemperature : Value
  Precipitation : Value
deriving DecidableEq

/-- The names of the fields of `Line` other than `date`. -/
inductive Field where
  | MeanTemperature
  | MeanDewPoint
  | MeanSeaPressure
  | MeanPressure
  | MeanVisibility
  | MeanWindSpeed
  | MaxTemperature
  | MinTemperature
  | Precipitation
deriving DecidableEq, Repr

/-- Reading a field by name: `reflect.ValueOf(line).FieldByName(field)`. -/
def Line.FieldByName (l : Line) : Field → Value
  | .MeanTemperature => l.MeanTemperature
  | .MeanDewPoint => l.MeanDewPoint
  | .MeanSeaPressure => l.MeanSeaPressure
  | .MeanPressure => l.MeanPressure
  | .MeanVisibility => l.MeanVisibility
  | .MeanWindSpeed => l.MeanWindSpeed
  | .MaxTemperature => l.MaxTemperature
  | .MinTemperature => l.MinTemperature
  | .Precipitation => l.Precipitation

/-- Writing a field by name: `reflect.ValueOf(&line).Elem().FieldByName(field).Set(v)`. -/
def Line.SetField (l : Line) (f : Field) (v : Value) : Line :=
  match f with
  | .MeanTemperature => { l with MeanTemperature := v }
  | .MeanDewPoint => { l with MeanDewPoint := v }
  | .MeanSeaPressure => { l with MeanSeaPressure := v }
  | .MeanPressure => { l with MeanPressure := v }
  | .MeanVisibility => { l with MeanVisibility := v }
  | .MeanWindSpeed => { l with MeanWindSpeed := v }
  | .MaxTemperature => { l with MaxTemperature := v }
  | .MinTemperature => { l with MinTemperature := v }
  | .Precipitation => { l with Precipitation := v }

/-- The zero value of `Line` (`var availability Line`). -/
def Line.zero : Line :=
  { date := [], MeanTemperature := .nil, MeanDewPoint := .nil, MeanSeaPressure := .nil,
    MeanPressure := .nil, MeanVisibility := .nil, MeanWindSpeed := .nil,
    MaxTemperature := .nil, MinTemperature := .nil, Precipitation := .nil }

/-- One row of `gsod_availability`, as bound to the INSERT statement of `insertAvailability`. -/
structure Row where
  station_id : Bytes
  year : Bytes
  count : Int
  mean_temperature : Value
  max_temperature : Value
  min_temperature : Value
  mean_dew_point : Value
  mean_sea_pressure : Value
  mean_pressure : Value
  mean_visibility : Value
  mean_wind_speed : Value
  precipitation : Value
deriving DecidableEq

/-- One call of `ioutil.WriteFile`. -/
structure FileWrite where
  path : Bytes
  data : Bytes
  perm : Nat
deriving DecidableEq

/-- The effects issued so far: INSERT rows on the transaction and file writes. -/
structure World where
  rows : List Row
  writes : List FileWrite
deriving DecidableEq

/-- The struct `File`. -/
structure File where
  name : Bytes
  data : ByteSlice
deriving DecidableEq

/-- Library functions and collaborators the program calls. `parseFloat` is
`strconv.ParseFloat(s, 64)` with `none` for a non-nil error; `execFails rows row` tells whether
`tx.Exec` returns an error for `row` after `rows`; `writeFails` likewise for `ioutil.WriteFile`. -/
structure Lib where
  trimSpace : Bytes → Bytes
  parseFloat : Bytes → Option F64
  join : Bytes → Bytes → Bytes
  execFails : List Row → Row → Bool
  writeFails : List FileWrite → FileWrite → Bool

/-- Conversion to `int16`, and the result of `int16` arithmetic: wrap into `[-32768, 32767]`. -/
def toInt16 (x : Int) : Int := (x + 32768) % 65536 - 32768

/-- The slice expression `s[lo:hi]` of a string: bounded by the length. -/
def sliceString (s : Bytes) (lo hi : Nat) : Except Abort Bytes :=
  if lo ≤ hi ∧ hi ≤ s.length then .ok ((s.drop lo).take (hi - lo)) else .error .sliceOutOfRange

/-- The value of `s[lo:hi]` for a byte slice when the bounds are in range: the result shares
the backing array, so its spare capacity is what follows `hi`. -/
def ByteSlice.window (s : ByteSlice) (lo hi : Nat) : ByteSlice :=
  { bytes := (s.backing.drop lo).take (hi - lo), spare := s.backing.drop hi }

/-- The slice expression `s[lo:hi]` of a byte slice: bounded by the capacity. -/
def ByteSlice.slice (s : ByteSlice) (lo hi : Nat) : Except Abort ByteSlice :=
  if lo ≤ hi ∧ hi ≤ s.backing.length then .ok (s.window lo hi) else .error .sliceOutOfRange

def Fahrenheit : UInt8 := 0
def Mile : UInt8 := 1
def Knot : UInt8 := 2
def Inch : UInt8 := 3
def Millibar : UInt8 := 4

/-- The function `checkNullAndConvert`. The constants are converted to `float64` and the
operations are carried out in `float64`, from left to right. -/
def checkNullAndConvert (lib : Lib) (value : ByteSlice) (nullValue : Bytes) (unit : UInt8) :
    Except Abort Value :=
  let str := lib.trimSpace value.bytes
  if str = nullValue then .ok .nil
  else
    match lib.parseFloat str with
    | none => .error (.parseFloatFailed str)
    | some v =>
      if unit = Fahrenheit then
        .ok (.float64 (F64.mul (F64.div (F64.sub v (F64.lit 32 1)) (F64.lit 9 1)) (F64.lit 5 1)))
      else if unit = Mile then .ok (.float64 (F64.mul v (F64.lit 160934 100)))
      else if unit = Knot then .ok (.float64 (F64.mul v (F64.lit 514444 1000000)))
      else if unit = Inch then
        if v.isZero then .ok .nil else .ok (.float64 (F64.mul v (F64.lit 254 10)))
      else if unit = Millibar then .ok (.float64 (F64.mul v (F64.lit 100 1)))
      else .error .wrongUnit

/-- One assignment of `parseLine`: slice the line, then convert. -/
def convertField (lib : Lib) (lineStr : ByteSlice) (lo hi : Nat) (nullValue : Bytes)
    (unit : UInt8) : Except Abort Value :=
  match lineStr.slice lo hi with
  | .error e => .error e
  | .ok value => checkNullAndConvert lib value nullValue unit

/-- The function `parseLine`. -/
def parseLine (lib : Lib) (lineStr : ByteSlice) : Except Abort Line := do
  let date ← lineStr.slice 14 22
  let meanTemperature ← convertField lib lineStr 24 30 (ascii "9999.9") Fahrenheit
  let meanDewPoint ← convertField lib lineStr 35 41 (ascii "9999.9") Fahrenheit
  let meanSeaPressure ← convertField lib lineStr 46 52 (ascii "9999.9") Millibar
  let meanPressure ← convertField lib lineStr 57 63 (ascii "9999.9") Millibar
  let meanVisibility ← convertField lib lineStr 68 73 (ascii "999.9") Mile
  let meanWindSpeed ← convertField lib lineStr 78 83 (ascii "999.9") Knot
  let maxTemperature ← convertField lib lineStr 102 108 (ascii "9999.9") Fahrenheit
  let minTemperature ← convertField lib lineStr 110 116 (ascii "9999.9") Fahrenheit
  let precipitation ← convertField lib lineStr 118 123 (ascii "99.99") Inch
  return { date := date.bytes, MeanTemperature := meanTemperature,
           MeanDewPoint := meanDewPoint, MeanSeaPressure := meanSeaPressure,
           MeanPressure := meanPressure, MeanVisibility := meanVisibility,
           MeanWindSpeed := meanWindSpeed, MaxTemperature := maxTemperature,
           MinTemperature := minTemperature, Precipitation := precipitation }

/-- The field names collected by the reflection loop of `checkDataValid`: every field of
`Line` except `date`, in declaration order. -/
def fields : List Field :=
  [.MeanTemperature, .MeanDewPoint, .MeanSeaPressure, .MeanPressure, .MeanVisibility,
   .MeanWindSpeed, .MaxTemperature, .MinTemperature, .Precipitation]

/-- The statement `nilCount[field]++` on a `map[string]int16` (a missing key reads as 0). -/
def increment (nilCount : Field → Int) (field : Field) : Field → Int :=
  fun g => if g = field then toInt16 (nilCount g + 1) else nilCount g

/-- The inner loop of `checkDataValid` over the fields of one record. -/
def countRecord (nilCount : Field → Int) (record : Line) : Field → Int :=
  fields.foldl
    (fun nc field => if (record.FieldByName field).IsNil then increment nc field else nc)
    nilCount

/-- The outer loop of `checkDataValid` over the records, from the empty map. -/
def countNil (records : List Line) : Field → Int :=
  records.foldl countRecord (fun _ => 0)

/-- The function `insertAvailability`: one INSERT is issued; an error of `Exec` is fatal. -/
def insertAvailability (lib : Lib) (w : World) (stationId year : Bytes) (count : Int)
    (line : Line) : World × Except Abort Unit :=
  let row : Row :=
    { station_id := stationId, year := year, count := count,
      mean_temperature := line.MeanTemperature, max_temperature := line.MaxTemperature,
      min_temperature := line.MinTemperature, mean_dew_point := line.MeanDewPoint,
      mean_sea_pressure := line.MeanSeaPressure, mean_pressure := line.MeanPressure,
      mean_visibility := line.MeanVisibility, mean_wind_speed := line.MeanWindSpeed,
      precipitation := line.Precipitation }
  let w' : World := { w with rows := w.rows ++ [row] }
  if lib.execFails w.rows row then (w', .error .execFailed) else (w', .ok ())

/-- The availability record built by the last loop of `checkDataValid`. -/
def availabilityOf (total : Int) (nilCount : Field → Int) : Line :=
  fields.foldl
    (fun a field => a.SetField field (.int16 (toInt16 (total - nilCount field))))
    Line.zero

/-- The function `checkDataValid`. -/
def checkDataValid (lib : Lib) (w : World) (stationId : Bytes) (records : List Line) :
    World × Except Abort Int :=
  let total := toInt16 records.length
  match records with
  | [] => (w, .error .indexOutOfRange)
  | first :: _ =>
    match sliceString first.date 0 4 with
    | .error e => (w, .error e)
    | .ok year =>
      let nilCount := countNil records
      let availability := availabilityOf total nilCount
      match insertAvailability lib w stationId year total availability with
      | (w', .error e) => (w', .error e)
      | (w', .ok _) => (w', .ok total)

/-- The character class `\d` of Go regular expressions: an ASCII digit. -/
def isDigit (b : UInt8) : Bool := decide (48 ≤ b.toNat ∧ b.toNat ≤ 57)

/-- Match `\d{n}` at the start of `s`: the digits matched and the rest. -/
def matchDigits : Nat → Bytes → Option (Bytes × Bytes)
  | 0, s => some ([], s)
  | _ + 1, [] => none
  | n + 1, b :: s =>
    if isDigit b then
      match matchDigits n s with
      | none => none
      | some (m, rest) => some (b :: m, rest)
    else none

/-- Match a literal at the start of `s`: the rest. -/
def matchLiteral (lit s : Bytes) : Option Bytes :=
  if lit.isPrefixOf s then some (s.drop lit.length) else none

/-- The call `filenameRe.FindStringSubmatch(name)` for the expression
`^(\d{6}-\d{5})-(\d{4})\.op$`: the whole match and the two groups, or `none` for nil. -/
def filenameReFind (name : Bytes) : Option (List Bytes) :=
  match matchDigits 6 name with
  | none => none
  | some (d6, r1) =>
    match matchLiteral (ascii "-") r1 with
    | none => none
    | some r2 =>
      match matchDigits 5 r2 with
      | none => none
      | some (d5, r3) =>
        match matchLiteral (ascii "-") r3 with
        | none => none
        | some r4 =>
          match matchDigits 4 r4 with
          | none => none
          | some (d4, r5) =>
            match matchLiteral (ascii ".op") r5 with
            | none => none
            | some r6 =>
              if r6 = [] then some [name, d6 ++ ascii "-" ++ d5, d4] else none

/-- The pieces of `bytes.Split` for a separator of one byte, over the elements `s` of a slice
with spare capacity `spare`: every piece but the last has its capacity cut to its length, the
last one keeps the spare capacity of the slice. -/
def splitPieces (sep : UInt8) (spare : Bytes) : Bytes → List ByteSlice
  | [] => [{ bytes := [], spare := spare }]
  | b :: s =>
    if b = sep then { bytes := [], spare := [] } :: splitPieces sep spare s
    else
      match splitPieces sep spare s with
      | [] => [{ bytes := [b], spare := spare }]
      | piece :: pieces => { bytes := b :: piece.bytes, spare := piece.spare } :: pieces

/-- The call `bytes.Split(s, sep)` for a separator of one byte. -/
def bytesSplit (s : ByteSlice) (sep : UInt8) : List ByteSlice :=
  splitPieces sep s.spare s.bytes

/-- The loop of `saveStation` over the lines, with the records appended so far. -/
def parseRecords (lib : Lib) : List ByteSlice → List Line → Except Abort (List Line)
  | [], records => .ok records
  | line :: rest, records =>
    if line.bytes.length = 0 ∨ (ascii "STN--- WBAN").isPrefixOf line.bytes = true then
      parseRecords lib rest records
    else
      match parseLine lib line with
      | .error e => .error e
      | .ok record => parseRecords lib rest (records ++ [record])

/-- Lines 124-129 of `saveStation`: keep the raw file when `count > 350`. -/
def retain (lib : Lib) (w : World) (file : File) (dataDir : Bytes) (count : Int) :
    World × Except Abort Unit :=
  if count > 350 then
    let fw : FileWrite :=
      { path := lib.join dataDir file.name, data := file.data.bytes, perm := 0o440 }
    let w' : World := { w with writes := w.writes ++ [fw] }
    if lib.writeFails w.writes fw then (w', .error .writeFileFailed) else (w', .ok ())
  else (w, .ok ())

/-- Lines 123-129 of `saveStation`: the audit of the parsed records, then the retention. -/
def auditAndRetain (lib : Lib) (w : World) (file : File) (dataDir stationId : Bytes)
    (records : List Line) : World × Except Abort Unit :=
  match checkDataValid lib w stationId records with
  | (w', .error e) => (w', .error e)
  | (w', .ok count) => retain lib w' file dataDir count

/-- The function `saveStation`. -/
def saveStation (lib : Lib) (w : World) (file : File) (dataDir : Bytes) :
    World × Except Abort Unit :=
  match filenameReFind file.name with
  | none => (w, .error .indexOutOfRange)
  | some groups =>
    match groups.get? 1 with
    | none => (w, .error .indexOutOfRange)
    | some stationId =>
      match parseRecords lib (bytesSplit file.data 10) [] with
      | .error e => (w, .error e)
      | .ok records => auditAndRetain lib w file dataDir stationId records

/-! ### A concrete library -/

/-- White space among the ASCII bytes, as `strings.TrimSpace` sees it. -/
def isAsciiSpace (b : UInt8) : Bool :=
  b = 9 || b = 10 || b = 11 || b = 12 || b = 13 || b = 32

/-- The function `strings.TrimSpace` on ASCII text. -/
def trimAscii (s : Bytes) : Bytes :=
  ((s.dropWhile isAsciiSpace).reverse.dropWhile isAsciiSpace).reverse

/-- The number written by a string of decimal digits. -/
def digitsValue (s : Bytes) : Nat :=
  s.foldl (fun acc b => 10 * acc + (b.toNat - 48)) 0

/-- An unsigned decimal `ddd`, `ddd.ddd`, `ddd.` or `.ddd`, with the given sign: the nearest
`float64`. -/
def parseUnsigned (neg : Bool) (s : Bytes) : Option F64 :=
  let whole := s.takeWhile isDigit
  let rest := s.dropWhile isDigit
  let frac := match rest with
    | 46 :: t => some t
    | [] => some []
    | _ => none
  match frac with
  | none => none
  | some f =>
    if f.all isDigit ∧ 0 < whole.length + f.length then
      some (F64.round neg (digitsValue (whole ++ f)) (10 ^ f.length))
    else none

/-- The function `strconv.ParseFloat` on plain signed decimals without exponent. -/
def parseDecimal (s : Bytes) : Option F64 :=
  match s with
  | 45 :: t => parseUnsigned true t
  | 43 :: t => parseUnsigned false t
  | _ => parseUnsigned false s

/-- A concrete library: ASCII trimming, plain decimals, path joining with a slash, and
collaborators that never fail. -/
def refLib : Lib :=
  { trimSpace := trimAscii
    parseFloat := parseDecimal
    join := fun dir name => dir ++ ascii "/" ++ name
    execFails := fun _ _ => false
    writeFails := fun _ _ => false }

/-- A byte slice without spare capacity. -/
def ByteSlice.ofBytes (b : Bytes) : ByteSlice := { bytes := b, spare := [] }

/-- A data line for 1 January 1997 on which every quantity is the missing-value text. -/
def lineAllMissing : Bytes := ascii
  "010010 99999  19970101  9999.9  0  9999.9  0  9999.9  0  9999.9  0  999.9  0  999.9  0  999.9  999.9  9999.9  9999.9  99.99  999.9  000000"

/-- A data line for 2 January 1997 with mean temperature 50.0 and nothing else. -/
def lineTemp50 : Bytes := ascii
  "010010 99999  19970102    50.0 24  9999.9  0  9999.9  0  9999.9  0  999.9  0  999.9  0  999.9  999.9  9999.9  9999.9  99.99  999.9  000000"

/-- A data line for 1 January 1998 on which every quantity is the missing-value text. -/
def lineNextYear : Bytes := ascii
  "010010 99999  19980101  9999.9  0  9999.9  0  9999.9  0  9999.9  0  999.9  0  999.9  0  999.9  999.9  9999.9  9999.9  99.99  999.9  000000"

/-- The column header line of a station file. -/
def lineHeader : Bytes := ascii
  "STN--- WBAN   YEARMODA    TEMP       DEWP      SLP        STP       VISIB      WDSP     MXSPD   GUST    MAX     MIN   PRCP   SNDP   FRSHTT"

/-- The first 100 bytes of `lineAllMissing` as a slice of the whole line: length 100,
capacity 138. -/
def shortLine : ByteSlice :=
  { bytes := lineAllMissing.take 100, spare := lineAllMissing.drop 100 }

/-- The record parsed from `lineAllMissing`. -/
def recAllMissing : Line := { Line.zero with date := ascii "19970101" }

/-- The `float64` value 10. -/
def ten : F64 := .fin false 5629499534213120 (-49)

/-- The record parsed from `lineTemp50`: 50 degrees Fahrenheit are 10 degrees Celsius. -/
def recTemp50 : Line :=
  { Line.zero with date := ascii "19970102", MeanTemperature := .float64 ten }

/-- The record parsed from `lineNextYear`. -/
def recNextYear : Line := { Line.zero with date := ascii "19980101" }

/-! ### Specification vocabulary -/

/-- The bytes `lo ≤ i < hi` of a byte string, as far as it reaches. -/
def bytesAt (line : Bytes) (lo hi : Nat) : Bytes := (line.drop lo).take (hi - lo)

/-- The format table of the quantity fields: start, end, text of a missing value. -/
def formatTable : List (Nat × Nat × Bytes) :=
  [(24, 30, ascii "9999.9"), (35, 41, ascii "9999.9"), (46, 52, ascii "9999.9"),
   (57, 63, ascii "9999.9"), (68, 73, ascii "999.9"), (78, 83, ascii "999.9"),
   (102, 108, ascii "9999.9"), (110, 116, ascii "9999.9"), (118, 123, ascii "99.99")]

/-- A field whose trimmed text is neither the missing-value text nor accepted by `ParseFloat`. -/
def Unreadable (lib : Lib) (line : Bytes) (entry : Nat × Nat × Bytes) : Prop :=
  lib.trimSpace (bytesAt line entry.1 entry.2.1) ≠ entry.2.2 ∧
    lib.parseFloat (lib.trimSpace (bytesAt line entry.1 entry.2.1)) = none

/-- The five unit kinds declared in the source. -/
def IsUnit (unit : UInt8) : Prop :=
  unit = Fahrenheit ∨ unit = Mile ∨ unit = Knot ∨ unit = Inch ∨ unit = Millibar

/-- The number of records in which a field is nil. -/
def absent (f : Field) (records : List Line) : Nat :=
  records.countP (fun r => (r.FieldByName f).IsNil)

/-- The column of a row that holds the count of a field. -/
def Row.countOf (row : Row) : Field → Value
  | .MeanTemperature => row.mean_temperature
  | .MeanDewPoint => row.mean_dew_point
  | .MeanSeaPressure => row.mean_sea_pressure
  | .MeanPressure => row.mean_pressure
  | .MeanVisibility => row.mean_visibility
  | .MeanWindSpeed => row.mean_wind_speed
  | .MaxTemperature => row.max_temperature
  | .MinTemperature => row.min_temperature
  | .Precipitation => row.precipitation

/-- The count of present values of a field, in `int16` arithmetic. -/
def presentCount (records : List Line) (f : Field) : Int :=
  toInt16 ((records.length : Int) - (absent f records : Int))

/-- The availability row of a batch of records for a station and a year text. -/
def summaryRow (stationId year : Bytes) (records : List Line) : Row :=
  { station_id := stationId, year := year, count := toInt16 records.length,
    mean_temperature := .int16 (presentCount records .MeanTemperature),
    max_temperature := .int16 (presentCount records .MaxTemperature),
    min_temperature := .int16 (presentCount records .MinTemperature),
    mean_dew_point := .int16 (presentCount records .MeanDewPoint),
    mean_sea_pressure := .int16 (presentCount records .MeanSeaPressure),
    mean_pressure := .int16 (presentCount records .MeanPressure),
    mean_visibility := .int16 (presentCount records .MeanVisibility),
    mean_wind_speed := .int16 (presentCount records .MeanWindSpeed),
    precipitation := .int16 (presentCount records .Precipitation) }

/-- The station file pattern: six digits, a hyphen, five digits, a hyphen, four digits and
the suffix `.op`. -/
def IsStationFileName (name : Bytes) : Prop :=
  ∃ station wban year : Bytes,
    name = station ++ ascii "-" ++ wban ++ ascii "-" ++ year ++ ascii ".op" ∧
    station.length = 6 ∧ wban.length = 5 ∧ year.length = 4 ∧
    (∀ b ∈ station, isDigit b = true) ∧ (∀ b ∈ wban, isDigit b = true) ∧
    (∀ b ∈ year, isDigit b = true)

/-- A line that is not empty and does not begin with the header marker `STN--- WBAN`. -/
def isDataLine (line : ByteSlice) : Bool :=
  decide (line.bytes ≠ [] ∧ ¬ ascii "STN--- WBAN" <+: line.bytes)

/-- The lines of a blob, split at the byte `\n`, that are not empty and do not begin with
the header marker, in their order of appearance. -/
def dataLines (blob : ByteSlice) : List ByteSlice :=
  (bytesSplit blob 10).filter isDataLine

/-- A blob of `n` copies of one line, each ended by `\n`. -/
def repeatBlob (line : Bytes) : Nat → Bytes
  | 0 => []
  | n + 1 => line ++ 10 :: repeatBlob line n

/-- A station file of `n` copies of the line `lineAllMissing`. -/
def blobFile (n : Nat) : File :=
  { name := ascii "010010-99999-1997.op", data := .ofBytes (repeatBlob lineAllMissing n) }

/-- A station file name. -/
def sampleName : Bytes := ascii "010010-99999-1997.op"

/-- A station file of three lines: the header and two data lines. -/
def sampleFile : File :=
  { name := sampleName,
    data := ByteSlice.ofBytes (lineHeader ++ 10 :: (lineAllMissing ++ 10 :: (lineTemp50 ++ [10]))) }


/-! ### float64 arithmetic -/

namespace F64

theorem excess_le (fuel q : Nat) (hq : q ≠ 0) : 2 ^ excess fuel q ≤ q := by
  induction fuel generalizing q with
  | zero =>
    simp only [excess, pow_zero]
    omega
  | succ fuel ih =>
    unfold excess
    by_cases h : q < 2 ^ 53
    · rw [if_pos h, pow_zero]
      omega
    · rw [if_neg h]
      have h2 : (2 : Nat) ≤ q := by
        have : (2 : Nat) ≤ 2 ^ 53 := by norm_num
        omega
      have hq2 : q / 2 ≠ 0 := by omega
      have := ih (q / 2) hq2
      rw [pow_succ]
      omega

theorem pack_isZero_false (neg : Bool) (m : Nat) (e : Int) (h0 : m ≠ 0) :
    (pack neg m e).isZero = false := by
  unfold pack
  split <;> split <;> simp [isZero, h0]

theorem le_nearest (n d : Nat) : n / d ≤ nearest n d := by
  unfold nearest
  split <;> omega

theorem pack_nearest_isZero_false (neg : Bool) (n den : Nat) (hden : 0 < den) (h : den ≤ n) :
    (pack neg (nearest n (den * 2 ^ excess (n / den) (n / den)))
      ((excess (n / den) (n / den) : Int) - 1074)).isZero = false := by
  have hq0 : n / den ≠ 0 := by
    have := (Nat.le_div_iff_mul_le hden).2 (show 1 * den ≤ n by omega)
    omega
  have hs := excess_le (n / den) (n / den) hq0
  have hd : den * 2 ^ excess (n / den) (n / den) ≤ n := by
    calc den * 2 ^ excess (n / den) (n / den)
        ≤ den * (n / den) := Nat.mul_le_mul_left _ hs
      _ ≤ n := Nat.mul_div_le _ _
  have hdpos : 0 < den * 2 ^ excess (n / den) (n / den) :=
    Nat.mul_pos hden (Nat.two_pow_pos _)
  have hq : 1 ≤ n / (den * 2 ^ excess (n / den) (n / den)) :=
    (Nat.le_div_iff_mul_le hdpos).2 (by omega)
  have hn := le_nearest n (den * 2 ^ excess (n / den) (n / den))
  apply pack_isZero_false
  omega

theorem round_isZero_false (neg : Bool) (num den : Nat) (hden : 0 < den)
    (h : den ≤ num <<< 1074) : (round neg num den).isZero = false := by
  unfold round
  simp only [Nat.shiftLeft_eq] at h ⊢
  exact pack_nearest_isZero_false neg _ den hden h

theorem nearest_zero (d : Nat) (hd : 0 < d) : nearest 0 d = 0 := by
  unfold nearest
  rw [Nat.zero_mod, Nat.zero_div, if_neg]
  omega

theorem round_zero (neg : Bool) (den : Nat) (hden : 0 < den) :
    round neg 0 den = .fin neg 0 (-1074) := by
  have h0 : excess 0 0 = 0 := rfl
  unfold round
  simp only [Nat.zero_shiftLeft, Nat.zero_div, h0, Nat.shiftLeft_zero,
    nearest_zero den hden]
  rfl

set_option maxRecDepth 1000000 in
theorem lit_25_4 : lit 254 10 = .fin false 7149464408450662 (-48) := by
  decide

theorem le_scaled (k t a : Nat) (hk : k ≤ 48 + t) (ha : 2 ^ 48 ≤ a) : 1 <<< k ≤ a <<< t := by
  rw [Nat.shiftLeft_eq, Nat.shiftLeft_eq, Nat.one_mul]
  exact Nat.le_trans (Nat.pow_le_pow_right (by norm_num) hk)
    (Nat.le_trans (Nat.le_of_eq (Nat.pow_add 2 48 t)) (Nat.mul_le_mul_right _ ha))

theorem mul_lit_isZero (v : F64) (hv : v.valid = true) :
    (mul v (lit 254 10)).isZero = v.isZero := by
  rw [lit_25_4]
  cases v with
  | nan => rfl
  | inf s => rfl
  | fin s m e =>
    have hpos : ∀ k : Nat, 0 < 1 <<< k := by
      intro k
      rw [Nat.shiftLeft_eq, Nat.one_mul]
      exact Nat.two_pow_pos k
    by_cases hm : m = 0
    · subst hm
      have hr : mul (.fin s 0 e) (.fin false 7149464408450662 (-48))
          = round (xor s false) 0 (1 <<< (-(e + -48)).toNat) := by
        simp only [mul, Nat.zero_mul, Nat.zero_shiftLeft]
      rw [hr, round_zero _ _ (hpos _)]
      rfl
    · simp only [valid, decide_eq_true_eq] at hv
      obtain ⟨_, he, _, _⟩ := hv
      have hk : (-(e + -48)).toNat ≤ 48 + 1074 := by omega
      have hm1 : 1 ≤ m := by omega
      have h48 : 2 ^ 48 ≤ (m * 7149464408450662) <<< (e + -48).toNat := by
        rw [Nat.shiftLeft_eq]
        calc 2 ^ 48 ≤ 7149464408450662 := by norm_num
          _ ≤ m * 7149464408450662 := Nat.le_mul_of_pos_left _ hm1
          _ ≤ m * 7149464408450662 * 2 ^ (e + -48).toNat :=
            Nat.le_mul_of_pos_right _ (Nat.two_pow_pos _)
      have hle : 1 <<< (-(e + -48)).toNat
          ≤ ((m * 7149464408450662) <<< (e + -48).toNat) <<< 1074 :=
        le_scaled _ _ _ hk h48
      have hz := round_isZero_false (xor s false) _ _ (hpos _) hle
      have hr : (fin s m e).isZero = false := by simp [isZero, hm]
      rw [hr]
      exact hz

end F64

/-! ### Conversion and line parsing -/

theorem sliceString_of_le (s : Bytes) (lo hi : Nat) (h1 : lo ≤ hi) (h2 : hi ≤ s.length) :
    sliceString s lo hi = .ok (bytesAt s lo hi) := by
  unfold sliceString bytesAt
  rw [if_pos ⟨h1, h2⟩]

theorem sliceString_of_lt (s : Bytes) (lo hi : Nat) (h : s.length < hi) :
    sliceString s lo hi = .error .sliceOutOfRange := by
  unfold sliceString
  rw [if_neg]
  omega

theorem window_bytes (s : ByteSlice) (lo hi : Nat) :
    (s.window lo hi).bytes = bytesAt s.backing lo hi := rfl

theorem window_ofBytes (line : Bytes) (lo hi : Nat) :
    ((ByteSlice.ofBytes line).window lo hi).bytes = bytesAt line lo hi := by
  rw [window_bytes]
  unfold ByteSlice.backing ByteSlice.ofBytes
  rw [List.append_nil]

theorem slice_eq_ok_iff (s : ByteSlice) (lo hi : Nat) (r : ByteSlice) :
    s.slice lo hi = .ok r ↔ (lo ≤ hi ∧ hi ≤ s.backing.length) ∧ r = s.window lo hi := by
  unfold ByteSlice.slice
  by_cases h : lo ≤ hi ∧ hi ≤ s.backing.length
  · simp only [h, and_self, if_true, Except.ok.injEq, true_and]
    exact eq_comm
  · simp [h]

theorem slice_of_le (s : ByteSlice) (lo hi : Nat) (h1 : lo ≤ hi) (h2 : hi ≤ s.backing.length) :
    s.slice lo hi = .ok (s.window lo hi) :=
  (slice_eq_ok_iff s lo hi _).2 ⟨⟨h1, h2⟩, rfl⟩

theorem bind_eq_ok_iff {α β : Type} (x : Except Abort α) (f : α → Except Abort β) (b : β) :
    (x >>= f) = .ok b ↔ ∃ a, x = .ok a ∧ f a = .ok b := by
  cases x with
  | error e =>
    constructor
    · intro h; cases h
    · rintro ⟨a, h, _⟩; cases h
  | ok a =>
    constructor
    · intro h; exact ⟨a, rfl, h⟩
    · rintro ⟨a', h, h'⟩
      cases h
      exact h'

theorem convertField_eq_ok_iff (lib : Lib) (line : ByteSlice) (lo hi : Nat) (nullValue : Bytes)
    (unit : UInt8) (v : Value) :
    convertField lib line lo hi nullValue unit = .ok v ↔
      (lo ≤ hi ∧ hi ≤ line.backing.length) ∧
        checkNullAndConvert lib (line.window lo hi) nullValue unit = .ok v := by
  unfold convertField
  by_cases h : lo ≤ hi ∧ hi ≤ line.backing.length
  · rw [slice_of_le line lo hi h.1 h.2]
    simp [h]
  · have : line.slice lo hi = .error .sliceOutOfRange := by
      unfold ByteSlice.slice
      rw [if_neg h]
    rw [this]
    simp [h]

theorem checkNullAndConvert_ok_iff (lib : Lib) (value : ByteSlice) (nullValue : Bytes)
    (unit : UInt8) (hu : IsUnit unit) :
    (∃ v, checkNullAndConvert lib value nullValue unit = .ok v) ↔
      (lib.trimSpace value.bytes = nullValue ∨
        lib.parseFloat (lib.trimSpace value.bytes) ≠ none) := by
  unfold checkNullAndConvert
  by_cases h : lib.trimSpace value.bytes = nullValue
  · simp [h]
  · simp only [h, if_false, false_or]
    cases hp : lib.parseFloat (lib.trimSpace value.bytes) with
    | none => simp
    | some q =>
      simp only [ne_eq, not_false_eq_true, iff_true, reduceCtorEq]
      rcases hu with hu | hu | hu | hu | hu <;> subst hu
      · exact ⟨_, rfl⟩
      · exact ⟨_, rfl⟩
      · exact ⟨_, rfl⟩
      · cases hq : q.isZero
        · exact ⟨.float64 (F64.mul q (F64.lit 254 10)),
            by simp [hq, Inch, Fahrenheit, Mile, Knot]⟩
        · exact ⟨.nil, by simp [hq, Inch, Fahrenheit, Mile, Knot]⟩
      · exact ⟨_, rfl⟩

theorem parseLine_eq_ok_iff (lib : Lib) (line : ByteSlice) (r : Line) :
    parseLine lib line = .ok r ↔
      123 ≤ line.backing.length ∧ r.date = (line.window 14 22).bytes ∧
      checkNullAndConvert lib (line.window 24 30) (ascii "9999.9") Fahrenheit
        = .ok r.MeanTemperature ∧
      checkNullAndConvert lib (line.window 35 41) (ascii "9999.9") Fahrenheit
        = .ok r.MeanDewPoint ∧
      checkNullAndConvert lib (line.window 46 52) (ascii "9999.9") Millibar
        = .ok r.MeanSeaPressure ∧
      checkNullAndConvert lib (line.window 57 63) (ascii "9999.9") Millibar
        = .ok r.MeanPressure ∧
      checkNullAndConvert lib (line.window 68 73) (ascii "999.9") Mile
        = .ok r.MeanVisibility ∧
      checkNullAndConvert lib (line.window 78 83) (ascii "999.9") Knot
        = .ok r.MeanWindSpeed ∧
      checkNullAndConvert lib (line.window 102 108) (ascii "9999.9") Fahrenheit
        = .ok r.MaxTemperature ∧
      checkNullAndConvert lib (line.window 110 116) (ascii "9999.9") Fahrenheit
        = .ok r.MinTemperature ∧
      checkNullAndConvert lib (line.window 118 123) (ascii "99.99") Inch
        = .ok r.Precipitation := by
  unfold parseLine
  simp only [bind_eq_ok_iff, convertField_eq_ok_iff, slice_eq_ok_iff, pure, Except.pure,
    Except.ok.injEq]
  constructor
  · rintro ⟨d, ⟨_, rfl⟩, v1, ⟨_, h1⟩, v2, ⟨_, h2⟩, v3, ⟨_, h3⟩, v4, ⟨_, h4⟩, v5, ⟨_, h5⟩,
      v6, ⟨_, h6⟩, v7, ⟨_, h7⟩, v8, ⟨_, h8⟩, v9, ⟨⟨_, hlen⟩, h9⟩, rfl⟩
    exact ⟨hlen, rfl, h1, h2, h3, h4, h5, h6, h7, h8, h9⟩
  · rintro ⟨hlen, hd, h1, h2, h3, h4, h5, h6, h7, h8, h9⟩
    refine ⟨line.window 14 22, ⟨⟨by omega, by omega⟩, rfl⟩,
      r.MeanTemperature, ⟨⟨by omega, by omega⟩, h1⟩,
      r.MeanDewPoint, ⟨⟨by omega, by omega⟩, h2⟩, r.MeanSeaPressure, ⟨⟨by omega, by omega⟩, h3⟩,
      r.MeanPressure, ⟨⟨by omega, by omega⟩, h4⟩, r.MeanVisibility, ⟨⟨by omega, by omega⟩, h5⟩,
      r.MeanWindSpeed, ⟨⟨by omega, by omega⟩, h6⟩, r.MaxTemperature, ⟨⟨by omega, by omega⟩, h7⟩,
      r.MinTemperature, ⟨⟨by omega, by omega⟩, h8⟩, r.Precipitation, ⟨⟨by omega, by omega⟩, h9⟩,
      ?_⟩
    rw [← hd]

theorem parseLine_date_length (lib : Lib) (line : ByteSlice) (r : Line)
    (h : parseLine lib line = .ok r) : r.date.length = 8 := by
  obtain ⟨hlen, hd, _⟩ := (parseLine_eq_ok_iff lib line r).1 h
  rw [hd, window_bytes]
  unfold bytesAt
  simp only [List.length_take, List.length_drop]
  omega

theorem checkNullAndConvert_of_parse (lib : Lib) (value : ByteSlice) (nullValue : Bytes)
    (v : F64) (hne : lib.trimSpace value.bytes ≠ nullValue)
    (hv : lib.parseFloat (lib.trimSpace value.bytes) = some v) :
    checkNullAndConvert lib value nullValue Fahrenheit =
      .ok (.float64 (F64.mul (F64.div (F64.sub v (F64.lit 32 1)) (F64.lit 9 1)) (F64.lit 5 1))) ∧
    checkNullAndConvert lib value nullValue Mile =
      .ok (.float64 (F64.mul v (F64.lit 160934 100))) ∧
    checkNullAndConvert lib value nullValue Knot =
      .ok (.float64 (F64.mul v (F64.lit 514444 1000000))) ∧
    checkNullAndConvert lib value nullValue Millibar =
      .ok (.float64 (F64.mul v (F64.lit 100 1))) ∧
    checkNullAndConvert lib value nullValue Inch =
      .ok (if v.isZero = true then .nil else .float64 (F64.mul v (F64.lit 254 10))) := by
  unfold checkNullAndConvert
  simp only [hne, hv, if_false]
  refine ⟨rfl, rfl, rfl, rfl, ?_⟩
  cases h0 : v.isZero <;> simp [Inch, Fahrenheit, Mile, Knot]

set_option maxRecDepth 100000 in
theorem parseLine_lineAllMissing :
    parseLine refLib (.ofBytes lineAllMissing) = .ok recAllMissing := by
  decide

set_option maxRecDepth 1000000 in
theorem parseLine_lineTemp50 : parseLine refLib (.ofBytes lineTemp50) = .ok recTemp50 := by
  decide

set_option maxRecDepth 100000 in
theorem parseLine_shortLine : parseLine refLib shortLine = .ok recAllMissing := by
  decide

/-! ### Claims about `checkNullAndConvert` and `parseLine` -/

/-- C4: when `parseLine` returns a record, its date is the eight bytes of `line[14:22]` and
each of the nine quantities is the result of `checkNullAndConvert` on the slice, missing-value
text and unit of the format table. -/
theorem parseLine_fields (lib : Lib) (line : ByteSlice) (r : Line)
    (h : parseLine lib line = .ok r) :
    r.date = (line.window 14 22).bytes ∧ r.date.length = 8 ∧
    checkNullAndConvert lib (line.window 24 30) (ascii "9999.9") Fahrenheit
      = .ok r.MeanTemperature ∧
    checkNullAndConvert lib (line.window 35 41) (ascii "9999.9") Fahrenheit
      = .ok r.MeanDewPoint ∧
    checkNullAndConvert lib (line.window 46 52) (ascii "9999.9") Millibar
      = .ok r.MeanSeaPressure ∧
    checkNullAndConvert lib (line.window 57 63) (ascii "9999.9") Millibar
      = .ok r.MeanPressure ∧
    checkNullAndConvert lib (line.window 68 73) (ascii "999.9") Mile
      = .ok r.MeanVisibility ∧
    checkNullAndConvert lib (line.window 78 83) (ascii "999.9") Knot
      = .ok r.MeanWindSpeed ∧
    checkNullAndConvert lib (line.window 102 108) (ascii "9999.9") Fahrenheit
      = .ok r.MaxTemperature ∧
    checkNullAndConvert lib (line.window 110 116) (ascii "9999.9") Fahrenheit
      = .ok r.MinTemperature ∧
    checkNullAndConvert lib (line.window 118 123) (ascii "99.99") Inch
      = .ok r.Precipitation := by
  obtain ⟨_, hd, h1, h2, h3, h4, h5, h6, h7, h8, h9⟩ := (parseLine_eq_ok_iff lib line r).1 h
  exact ⟨hd, parseLine_date_length lib line r h, h1, h2, h3, h4, h5, h6, h7, h8, h9⟩

set_option maxRecDepth 100000 in
/-- Witness for C4: the line of 2 January 1997 with mean temperature 50.0 parses, its date is
the bytes 14 to 21 of the line, `19970102`, and its mean temperature is the conversion of the
bytes 24 to 29, `  50.0`. -/
theorem parseLine_fields_witness :
    parseLine refLib (.ofBytes lineTemp50) = .ok recTemp50 ∧
    recTemp50.date = bytesAt lineTemp50 14 22 ∧
    bytesAt lineTemp50 14 22 = ascii "19970102" ∧
    ((ByteSlice.ofBytes lineTemp50).window 24 30).bytes = ascii "  50.0" ∧
    checkNullAndConvert refLib ((ByteSlice.ofBytes lineTemp50).window 24 30) (ascii "9999.9")
      Fahrenheit = .ok (.float64 ten) :=
  ⟨parseLine_lineTemp50,
   (parseLine_fields refLib (.ofBytes lineTemp50) recTemp50 parseLine_lineTemp50).1.trans
     (window_ofBytes lineTemp50 14 22),
   by decide, by decide,
   (parseLine_fields refLib (.ofBytes lineTemp50) recTemp50 parseLine_lineTemp50).2.2.1⟩

/-- C5: when the trimmed raw field equals the missing-value text, `checkNullAndConvert`
returns nil without aborting, for every unit byte, declared or not. -/
theorem checkNullAndConvert_missing (lib : Lib) (value : ByteSlice) (nullValue : Bytes)
    (unit : UInt8) (h : lib.trimSpace value.bytes = nullValue) :
    checkNullAndConvert lib value nullValue unit = .ok .nil := by
  unfold checkNullAndConvert
  simp [h]

/-- Witness for C5: the text ` 999.9 ` with unit byte 77, which is not a declared unit. -/
theorem checkNullAndConvert_missing_witness :
    refLib.trimSpace (ascii " 999.9 ") = ascii "999.9" ∧
    checkNullAndConvert refLib (.ofBytes (ascii " 999.9 ")) (ascii "999.9") 77 = .ok .nil :=
  ⟨by decide, checkNullAndConvert_missing refLib _ _ 77 (by decide)⟩

set_option maxRecDepth 1000000 in
/-- C6 as stated fails: the text ` 50.1` in Fahrenheit gives the `float64` value
5660774531625415 / 2^49 (printed 10.055555555555555), which is neither `(v - 32) / 9 * 5` in
exact arithmetic for the decimal number 50.1 nor for the `float64` value that `ParseFloat`
returns for it. -/
theorem checkNullAndConvert_not_exact :
    checkNullAndConvert refLib (.ofBytes (ascii " 50.1")) (ascii "9999.9") Fahrenheit
      = .ok (.float64 (.fin false 5660774531625415 (-49))) ∧
    F64.toRat (.fin false 5660774531625415 (-49))
      = some (5660774531625415 / 562949953421312) ∧
    (5660774531625415 / 562949953421312 : ℚ) ≠ ((501 / 10 : ℚ) - 32) / 9 * 5 ∧
    refLib.parseFloat (refLib.trimSpace (ascii " 50.1"))
      = some (.fin false 7050948166601933 (-47)) ∧
    F64.toRat (.fin false 7050948166601933 (-47))
      = some (7050948166601933 / 140737488355328) ∧
    (5660774531625415 / 562949953421312 : ℚ)
      ≠ ((7050948166601933 / 140737488355328 : ℚ) - 32) / 9 * 5 := by
  refine ⟨by decide, ?_, by norm_num, by decide, ?_, by norm_num⟩
  · simp only [F64.toRat]
    norm_num
  · simp only [F64.toRat]
    norm_num

/-- C6, amended to `float64` arithmetic: for a raw field whose trimmed text is not the
missing-value text and is parsed as the `float64` value `v`, `checkNullAndConvert` returns
`(v - 32) / 9 * 5` for Fahrenheit, `v * 1609.34` for Mile, `v * 0.514444` for Knot and
`v * 100` for Millibar, each constant converted to `float64` and each operation rounded to
`float64`, from left to right; for Inch it returns nil when the converted value `v * 25.4`
is zero and `v * 25.4` otherwise. -/
theorem checkNullAndConvert_converts (lib : Lib) (value : ByteSlice) (nullValue : Bytes)
    (v : F64) (hne : lib.trimSpace value.bytes ≠ nullValue)
    (hv : lib.parseFloat (lib.trimSpace value.bytes) = some v) (hvalid : v.valid = true) :
    checkNullAndConvert lib value nullValue Fahrenheit =
      .ok (.float64 (F64.mul (F64.div (F64.sub v (F64.lit 32 1)) (F64.lit 9 1)) (F64.lit 5 1))) ∧
    checkNullAndConvert lib value nullValue Mile =
      .ok (.float64 (F64.mul v (F64.lit 160934 100))) ∧
    checkNullAndConvert lib value nullValue Knot =
      .ok (.float64 (F64.mul v (F64.lit 514444 1000000))) ∧
    checkNullAndConvert lib value nullValue Millibar =
      .ok (.float64 (F64.mul v (F64.lit 100 1))) ∧
    checkNullAndConvert lib value nullValue Inch =
      .ok (if (F64.mul v (F64.lit 254 10)).isZero = true then .nil
        else .float64 (F64.mul v (F64.lit 254 10))) := by
  obtain ⟨h1, h2, h3, h4, h5⟩ := checkNullAndConvert_of_parse lib value nullValue v hne hv
  refine ⟨h1, h2, h3, h4, ?_⟩
  rw [h5, F64.mul_lit_isZero v hvalid]

set_option maxRecDepth 1000000 in
/-- Witness for C6: `  50.0` in Fahrenheit gives the `float64` value 10, and ` 0.00` in Inch
gives nil. -/
theorem checkNullAndConvert_converts_witness :
    checkNullAndConvert refLib (.ofBytes (ascii "  50.0")) (ascii "9999.9") Fahrenheit
      = .ok (.float64 ten) ∧
    F64.toRat ten = some 10 ∧
    checkNullAndConvert refLib (.ofBytes (ascii " 0.00")) (ascii "99.99") Inch = .ok .nil := by
  have hp : refLib.parseFloat (refLib.trimSpace (ByteSlice.ofBytes (ascii "  50.0")).bytes) =
      some (.fin false 7036874417766400 (-47)) := by decide
  have hz : refLib.parseFloat (refLib.trimSpace (ByteSlice.ofBytes (ascii " 0.00")).bytes) =
      some (.fin false 0 (-1074)) := by decide
  refine ⟨?_, ?_, ?_⟩
  · rw [(checkNullAndConvert_converts refLib _ _ _ (by decide) hp (by decide)).1]
    decide
  · simp only [F64.toRat, ten]
    norm_num
  · rw [(checkNullAndConvert_converts refLib _ _ _ (by decide) hz (by decide)).2.2.2.2]
    decide

theorem not_unreadable_iff (lib : Lib) (line : ByteSlice) (lo hi : Nat) (nullValue : Bytes)
    (unit : UInt8) (hu : IsUnit unit) :
    ¬ Unreadable lib line.backing (lo, hi, nullValue) ↔
      ∃ v, checkNullAndConvert lib (line.window lo hi) nullValue unit = .ok v := by
  rw [checkNullAndConvert_ok_iff lib _ _ unit hu, window_bytes]
  unfold Unreadable
  simp only [ne_eq]
  tauto

theorem parseLine_ok_iff_readable (lib : Lib) (line : ByteSlice) :
    (∃ r, parseLine lib line = .ok r) ↔
      ¬ (line.backing.length < 123 ∨
        ∃ entry ∈ formatTable, Unreadable lib line.backing entry) := by
  have u0 : IsUnit Fahrenheit := Or.inl rfl
  have u1 : IsUnit Mile := Or.inr (Or.inl rfl)
  have u2 : IsUnit Knot := Or.inr (Or.inr (Or.inl rfl))
  have u3 : IsUnit Inch := Or.inr (Or.inr (Or.inr (Or.inl rfl)))
  have u4 : IsUnit Millibar := Or.inr (Or.inr (Or.inr (Or.inr rfl)))
  simp only [formatTable, List.mem_cons, List.mem_singleton, exists_eq_or_imp, exists_eq_left,
    not_or, List.not_mem_nil, false_and, exists_false, or_false,
    not_unreadable_iff lib line 24 30 _ Fahrenheit u0,
    not_unreadable_iff lib line 35 41 _ Fahrenheit u0,
    not_unreadable_iff lib line 46 52 _ Millibar u4,
    not_unreadable_iff lib line 57 63 _ Millibar u4,
    not_unreadable_iff lib line 68 73 _ Mile u1,
    not_unreadable_iff lib line 78 83 _ Knot u2,
    not_unreadable_iff lib line 102 108 _ Fahrenheit u0,
    not_unreadable_iff lib line 110 116 _ Fahrenheit u0,
    not_unreadable_iff lib line 118 123 _ Inch u3, not_lt]
  constructor
  · rintro ⟨r, hr⟩
    obtain ⟨hlen, _, h1, h2, h3, h4, h5, h6, h7, h8, h9⟩ := (parseLine_eq_ok_iff lib line r).1 hr
    exact ⟨hlen, ⟨_, h1⟩, ⟨_, h2⟩, ⟨_, h3⟩, ⟨_, h4⟩, ⟨_, h5⟩, ⟨_, h6⟩, ⟨_, h7⟩, ⟨_, h8⟩, ⟨_, h9⟩⟩
  · rintro ⟨hlen, ⟨v1, h1⟩, ⟨v2, h2⟩, ⟨v3, h3⟩, ⟨v4, h4⟩, ⟨v5, h5⟩, ⟨v6, h6⟩, ⟨v7, h7⟩,
      ⟨v8, h8⟩, ⟨v9, h9⟩⟩
    exact ⟨⟨(line.window 14 22).bytes, v1, v2, v3, v4, v5, v6, v7, v8, v9⟩,
      (parseLine_eq_ok_iff lib line _).2 ⟨hlen, rfl, h1, h2, h3, h4, h5, h6, h7, h8, h9⟩⟩

set_option maxRecDepth 100000 in
/-- C8 as stated fails: the first 100 bytes of a data line are shorter than 123 bytes. As a
slice of the whole line of 138 bytes (length 100, capacity 138) they make `parseLine` return
a record; the same 100 bytes with capacity 100 make it abort with a slice bounds error. -/
theorem parseLine_reads_beyond_length :
    shortLine.bytes = lineAllMissing.take 100 ∧
    shortLine.bytes.length = 100 ∧ shortLine.backing.length = 138 ∧
    parseLine refLib shortLine = .ok recAllMissing ∧
    parseLine refLib (.ofBytes (lineAllMissing.take 100)) = .error .sliceOutOfRange :=
  ⟨rfl, by decide, by decide, parseLine_shortLine, by decide⟩

/-- C8, amended to the capacity: `parseLine` aborts exactly when the capacity of the line is
less than 123 bytes or one of the nine quantity fields, as the slice expression of the line
yields it and trimmed, is neither its missing-value text nor accepted by `ParseFloat`; on
every other line it returns a record. For a line whose capacity is its length, as every piece
of `bytes.Split` but the last one is, this is the same with the length and the bytes of the
line. -/
theorem parseLine_aborts_iff (lib : Lib) (line : ByteSlice) :
    ((∃ e, parseLine lib line = .error e) ↔
      (line.backing.length < 123 ∨
        ∃ entry ∈ formatTable, Unreadable lib line.backing entry)) ∧
    ((∃ r, parseLine lib line = .ok r) ↔
      ¬ (line.backing.length < 123 ∨
        ∃ entry ∈ formatTable, Unreadable lib line.backing entry)) ∧
    (line.spare = [] →
      ((∃ e, parseLine lib line = .error e) ↔
        (line.bytes.length < 123 ∨
          ∃ entry ∈ formatTable, Unreadable lib line.bytes entry))) := by
  have h1 : (∃ e, parseLine lib line = .error e) ↔
      (line.backing.length < 123 ∨
        ∃ entry ∈ formatTable, Unreadable lib line.backing entry) := by
    rw [← not_iff_not, ← parseLine_ok_iff_readable lib line]
    cases parseLine lib line with
    | error e => simp
    | ok r => simp
  refine ⟨h1, parseLine_ok_iff_readable lib line, ?_⟩
  intro hs
  have hb : line.backing = line.bytes := by
    unfold ByteSlice.backing
    rw [hs, List.append_nil]
  rw [h1, hb]

set_option maxRecDepth 100000 in
/-- Witness for C8: the first 100 bytes of a data line, with capacity 100, make `parseLine`
abort, and the whole line makes it return a record. -/
theorem parseLine_aborts_iff_witness :
    (∃ e, parseLine refLib (.ofBytes (lineAllMissing.take 100)) = .error e) ∧
    (∃ r, parseLine refLib (.ofBytes lineAllMissing) = .ok r) :=
  ⟨((parseLine_aborts_iff refLib (.ofBytes (lineAllMissing.take 100))).2.2 rfl).2
      (Or.inl (by decide)),
   ⟨recAllMissing, parseLine_lineAllMissing⟩⟩

/-! ### The audit -/

theorem toInt16_of_range (x : Int) (h1 : -32768 ≤ x) (h2 : x ≤ 32767) : toInt16 x = x := by
  unfold toInt16
  omega

theorem toInt16_succ (x : Int) : toInt16 (toInt16 x + 1) = toInt16 (x + 1) := by
  unfold toInt16
  omega

theorem toInt16_sub (a b : Int) : toInt16 (toInt16 a - toInt16 b) = toInt16 (a - b) := by
  unfold toInt16
  omega

theorem countRecord_apply (nc : Field → Int) (r : Line) (g : Field) :
    countRecord nc r g = if (r.FieldByName g).IsNil then toInt16 (nc g + 1) else nc g := by
  unfold countRecord fields
  simp only [List.foldl_cons, List.foldl_nil]
  cases g <;> simp [increment, ite_apply]

theorem foldl_countRecord_apply (records : List Line) (g : Field) :
    ∀ (nc : Field → Int) (k : Nat), nc g = toInt16 (k : Int) →
      records.foldl countRecord nc g = toInt16 ((k + absent g records : Nat) : Int) := by
  induction records with
  | nil =>
    intro nc k h
    simpa [absent] using h
  | cons r rest ih =>
    intro nc k h
    rw [List.foldl_cons]
    by_cases hn : (r.FieldByName g).IsNil = true
    · have h' : countRecord nc r g = toInt16 ((k + 1 : Nat) : Int) := by
        rw [countRecord_apply, if_pos hn, h, toInt16_succ]
        rfl
      rw [ih _ _ h']
      unfold absent
      rw [List.countP_cons, if_pos hn]
      congr 2
      omega
    · have h' : countRecord nc r g = toInt16 ((k : Nat) : Int) := by
        rw [countRecord_apply, if_neg hn, h]
      rw [ih _ _ h']
      unfold absent
      rw [List.countP_cons, if_neg hn]
      rfl

theorem countNil_apply (records : List Line) (g : Field) :
    countNil records g = toInt16 (absent g records : Int) := by
  unfold countNil
  rw [foldl_countRecord_apply records g (fun _ => 0) 0 (by simp [toInt16])]
  simp

theorem availabilityOf_eq (total : Int) (nc : Field → Int) :
    availabilityOf total nc =
      { date := [],
        MeanTemperature := .int16 (toInt16 (total - nc .MeanTemperature)),
        MeanDewPoint := .int16 (toInt16 (total - nc .MeanDewPoint)),
        MeanSeaPressure := .int16 (toInt16 (total - nc .MeanSeaPressure)),
        MeanPressure := .int16 (toInt16 (total - nc .MeanPressure)),
        MeanVisibility := .int16 (toInt16 (total - nc .MeanVisibility)),
        MeanWindSpeed := .int16 (toInt16 (total - nc .MeanWindSpeed)),
        MaxTemperature := .int16 (toInt16 (total - nc .MaxTemperature)),
        MinTemperature := .int16 (toInt16 (total - nc .MinTemperature)),
        Precipitation := .int16 (toInt16 (total - nc .Precipitation)) } := rfl

theorem checkDataValid_cons (lib : Lib) (w : World) (stationId : Bytes) (first : Line)
    (rest : List Line) (hdate : 4 ≤ first.date.length) :
    checkDataValid lib w stationId (first :: rest) =
      ({ w with rows := w.rows ++ [summaryRow stationId (first.date.take 4) (first :: rest)] },
        if lib.execFails w.rows (summaryRow stationId (first.date.take 4) (first :: rest))
        then .error .execFailed else .ok (toInt16 ((first :: rest).length : Int))) := by
  have hs : sliceString first.date 0 4 = .ok (first.date.take 4) := by
    rw [sliceString_of_le first.date 0 4 (by omega) hdate]
    rfl
  have hrow : ∀ year,
      ({ station_id := stationId, year := year, count := toInt16 ((first :: rest).length : Int),
         mean_temperature :=
           (availabilityOf (toInt16 ((first :: rest).length : Int))
             (countNil (first :: rest))).MeanTemperature,
         max_temperature :=
           (availabilityOf (toInt16 ((first :: rest).length : Int))
             (countNil (first :: rest))).MaxTemperature,
         min_temperature :=
           (availabilityOf (toInt16 ((first :: rest).length : Int))
             (countNil (first :: rest))).MinTemperature,
         mean_dew_point :=
           (availabilityOf (toInt16 ((first :: rest).length : Int))
             (countNil (first :: rest))).MeanDewPoint,
         mean_sea_pressure :=
           (availabilityOf (toInt16 ((first :: rest).length : Int))
             (countNil (first :: rest))).MeanSeaPressure,
         mean_pressure :=
           (availabilityOf (toInt16 ((first :: rest).length : Int))
             (countNil (first :: rest))).MeanPressure,
         mean_visibility :=
           (availabilityOf (toInt16 ((first :: rest).length : Int))
             (countNil (first :: rest))).MeanVisibility,
         mean_wind_speed :=
           (availabilityOf (toInt16 ((first :: rest).length : Int))
             (countNil (first :: rest))).MeanWindSpeed,
         precipitation :=
           (availabilityOf (toInt16 ((first :: rest).length : Int))
             (countNil (first :: rest))).Precipitation } : Row)
        = summaryRow stationId year (first :: rest) := by
    intro year
    rw [availabilityOf_eq]
    simp only [summaryRow, presentCount, countNil_apply, toInt16_sub]
  unfold checkDataValid
  simp only [hs]
  unfold insertAvailability
  simp only [hrow]
  split <;> rename_i heq <;> split at heq <;> simp_all

theorem checkDataValid_writes (lib : Lib) (w : World) (stationId : Bytes) (records : List Line) :
    (checkDataValid lib w stationId records).1.writes = w.writes := by
  cases records with
  | nil => rfl
  | cons first rest =>
    by_cases hd : 4 ≤ first.date.length
    · rw [checkDataValid_cons lib w stationId first rest hd]
    · unfold checkDataValid
      simp only
      rw [sliceString_of_lt first.date 0 4 (by omega)]

theorem checkDataValid_rows (lib : Lib) (w : World) (stationId : Bytes) (records : List Line) :
    (checkDataValid lib w stationId records).1.rows = w.rows ∨
      ∃ row, (checkDataValid lib w stationId records).1.rows = w.rows ++ [row] ∧
        row.station_id = stationId := by
  cases records with
  | nil => exact Or.inl rfl
  | cons first rest =>
    by_cases hd : 4 ≤ first.date.length
    · rw [checkDataValid_cons lib w stationId first rest hd]
      exact Or.inr ⟨_, rfl, rfl⟩
    · left
      unfold checkDataValid
      simp only
      rw [sliceString_of_lt first.date 0 4 (by omega)]

theorem summaryRow_perm (stationId year : Bytes) (records records' : List Line)
    (h : records.Perm records') :
    summaryRow stationId year records = summaryRow stationId year records' := by
  unfold summaryRow presentCount absent
  simp only [h.length_eq, h.countP_eq]

theorem presentCount_of_le (records : List Line) (f : Field) (h : records.length ≤ 32767) :
    presentCount records f = (records.length : Int) - (absent f records : Int) := by
  unfold presentCount
  have hle : absent f records ≤ records.length := List.countP_le_length _
  apply toInt16_of_range <;> omega

theorem summaryRow_countOf (stationId year : Bytes) (records : List Line) (f : Field) :
    (summaryRow stationId year records).countOf f = .int16 (presentCount records f) := by
  cases f <;> rfl

theorem date_length_of_parsed (lib : Lib) (records : List Line)
    (hparsed : ∀ r ∈ records, ∃ line, parseLine lib line = .ok r) :
    ∀ r ∈ records, 4 ≤ r.date.length := by
  intro r hr
  obtain ⟨line, hl⟩ := hparsed r hr
  rw [parseLine_date_length lib line r hl]
  omega

/-- C1, within the range of `int16`: for a non-empty sequence of at most 32767 parsed
records, the row written to the sink and the returned total carry the number of records, and
the count written for each quantity field is that number minus the number of records in which
the field is nil; when no field is nil all nine counts equal the number of records. -/
theorem checkDataValid_counts (lib : Lib) (w : World) (stationId : Bytes) (records : List Line)
    (hne : records ≠ [])
    (hparsed : ∀ r ∈ records, ∃ line, parseLine lib line = .ok r)
    (hlen : records.length ≤ 32767) :
    ∃ row : Row,
      (checkDataValid lib w stationId records).1 = { w with rows := w.rows ++ [row] } ∧
      (checkDataValid lib w stationId records).2 =
        (if lib.execFails w.rows row then .error .execFailed else .ok (records.length : Int)) ∧
      row.count = (records.length : Int) ∧
      (∀ f, row.countOf f = .int16 ((records.length : Int) - (absent f records : Int))) ∧
      ((∀ r ∈ records, ∀ f, (r.FieldByName f).IsNil = false) →
        ∀ f, row.countOf f = .int16 (records.length : Int)) := by
  cases records with
  | nil => exact absurd rfl hne
  | cons first rest =>
    have hd := date_length_of_parsed lib _ hparsed first (List.mem_cons_self _ _)
    have ht : toInt16 ((first :: rest).length : Int) = ((first :: rest).length : Int) :=
      toInt16_of_range _ (by omega) (by omega)
    have hc : ∀ f, (summaryRow stationId (first.date.take 4) (first :: rest)).countOf f =
        .int16 (((first :: rest).length : Int) - (absent f (first :: rest) : Int)) := by
      intro f
      rw [summaryRow_countOf, presentCount_of_le _ f hlen]
    refine ⟨summaryRow stationId (first.date.take 4) (first :: rest), ?_, ?_, ?_, hc, ?_⟩
    · rw [checkDataValid_cons lib w stationId first rest hd]
    · rw [checkDataValid_cons lib w stationId first rest hd, ht]
    · exact ht
    · intro hall f
      rw [hc f]
      have h0 : absent f (first :: rest) = 0 := by
        unfold absent
        rw [List.countP_eq_zero]
        intro r hr
        simp [hall r hr f]
      rw [h0]
      simp

/-- Witness for C1: two records, the first with every field nil and the second with only the
mean temperature present, give total 2, mean temperature count 1 and dew point and
precipitation counts 0. -/
theorem checkDataValid_counts_witness :
    ∃ row : Row,
      (checkDataValid refLib ⟨[], []⟩ (ascii "010010-99999") [recAllMissing, recTemp50]).1.rows
        = [row] ∧
      (checkDataValid refLib ⟨[], []⟩ (ascii "010010-99999") [recAllMissing, recTemp50]).2
        = .ok 2 ∧
      row.count = 2 ∧ row.mean_temperature = .int16 1 ∧ row.mean_dew_point = .int16 0 ∧
      row.precipitation = .int16 0 := by
  obtain ⟨row, h1, h2, h3, h4, _⟩ :=
    checkDataValid_counts refLib ⟨[], []⟩ (ascii "010010-99999") [recAllMissing, recTemp50]
      (by simp)
      (by
        intro r hr
        simp only [List.mem_cons, List.mem_singleton, List.not_mem_nil, or_false] at hr
        rcases hr with rfl | rfl
        · exact ⟨.ofBytes lineAllMissing, parseLine_lineAllMissing⟩
        · exact ⟨.ofBytes lineTemp50, parseLine_lineTemp50⟩)
      (by simp)
  refine ⟨row, by rw [h1]; rfl, by rw [h2]; rfl, h3, ?_, ?_, ?_⟩
  · exact (h4 .MeanTemperature).trans (by decide)
  · exact (h4 .MeanDewPoint).trans (by decide)
  · exact (h4 .Precipitation).trans (by decide)

/-- C1 fails beyond the range of `int16`: on 32768 parsed records the reported total is
-32768, not 32768. -/
theorem checkDataValid_total_wraps :
    (List.replicate 32768 recAllMissing).length = 32768 ∧
    (∀ r ∈ List.replicate 32768 recAllMissing,
      parseLine refLib (.ofBytes lineAllMissing) = .ok r) ∧
    (checkDataValid refLib ⟨[], []⟩ (ascii "010010-99999")
      (List.replicate 32768 recAllMissing)).2 = .ok (-32768) ∧
    (checkDataValid refLib ⟨[], []⟩ (ascii "010010-99999")
      (List.replicate 32768 recAllMissing)).1.rows.map Row.count = [-32768] := by
  have hrep : List.replicate 32768 recAllMissing
      = recAllMissing :: List.replicate 32767 recAllMissing := rfl
  have ht : toInt16 (((recAllMissing :: List.replicate 32767 recAllMissing).length : Nat) : Int)
      = -32768 := by
    rw [List.length_cons, List.length_replicate]
    rfl
  refine ⟨List.length_replicate _ _, ?_, ?_, ?_⟩
  · intro r hr
    rw [List.eq_of_mem_replicate hr]
    exact parseLine_lineAllMissing
  · rw [hrep, checkDataValid_cons refLib _ _ _ _ (by decide), ht]
    rfl
  · rw [hrep, checkDataValid_cons refLib _ _ _ _ (by decide)]
    simp only [List.nil_append, List.map_cons, List.map_nil, summaryRow, ht]

/-- C7: on an empty sequence of records `checkDataValid` stops with an index-out-of-range
error at `records[0]`: no row is issued to the sink and no total is returned. -/
theorem checkDataValid_empty (lib : Lib) (w : World) (stationId : Bytes) :
    checkDataValid lib w stationId [] = (w, .error .indexOutOfRange) := rfl

set_option maxRecDepth 100000 in
theorem parseLine_lineNextYear :
    parseLine refLib (.ofBytes lineNextYear) = .ok recNextYear := by
  decide

/-- C9 as stated fails: two parsed records of different years give the year 1997 in one
order and 1998 in the other. -/
theorem checkDataValid_year_follows_first :
    List.Perm [recAllMissing, recNextYear] [recNextYear, recAllMissing] ∧
    parseLine refLib (.ofBytes lineAllMissing) = .ok recAllMissing ∧
    parseLine refLib (.ofBytes lineNextYear) = .ok recNextYear ∧
    (checkDataValid refLib ⟨[], []⟩ (ascii "010010-99999")
      [recAllMissing, recNextYear]).1.rows.map Row.year = [ascii "1997"] ∧
    (checkDataValid refLib ⟨[], []⟩ (ascii "010010-99999")
      [recNextYear, recAllMissing]).1.rows.map Row.year = [ascii "1998"] :=
  ⟨List.Perm.swap _ _ _, parseLine_lineAllMissing, parseLine_lineNextYear, by decide, by decide⟩

/-- C9, amended: for a non-empty sequence of parsed records and a permutation of it, the two
rows written carry the same station, the same total and the same nine counts; the year of
each row is the first four date bytes of the first record of its sequence, and when the two
years agree the two runs of `checkDataValid` coincide altogether. -/
theorem checkDataValid_perm (lib : Lib) (w : World) (stationId : Bytes)
    (records records' : List Line)
    (hperm : records.Perm records') (hne : records ≠ [])
    (hparsed : ∀ r ∈ records, ∃ line, parseLine lib line = .ok r) :
    ∃ row row' : Row,
      (checkDataValid lib w stationId records).1.rows = w.rows ++ [row] ∧
      (checkDataValid lib w stationId records').1.rows = w.rows ++ [row'] ∧
      row.station_id = row'.station_id ∧ row.count = row'.count ∧
      (∀ f, row.countOf f = row'.countOf f) ∧
      records.head?.map (fun r => r.date.take 4) = some row.year ∧
      records'.head?.map (fun r => r.date.take 4) = some row'.year ∧
      (row.year = row'.year →
        checkDataValid lib w stationId records = checkDataValid lib w stationId records') := by
  have hparsed' : ∀ r ∈ records', ∃ line, parseLine lib line = .ok r :=
    fun r hr => hparsed r (hperm.mem_iff.2 hr)
  cases records with
  | nil => exact absurd rfl hne
  | cons first rest =>
    cases records' with
    | nil => exact absurd hperm.length_eq (by simp)
    | cons first' rest' =>
      have hd := date_length_of_parsed lib _ hparsed first (List.mem_cons_self _ _)
      have hd' := date_length_of_parsed lib _ hparsed' first' (List.mem_cons_self _ _)
      have hrow : ∀ year, summaryRow stationId year (first :: rest)
          = summaryRow stationId year (first' :: rest') :=
        fun year => summaryRow_perm stationId year _ _ hperm
      refine ⟨summaryRow stationId (first.date.take 4) (first :: rest),
        summaryRow stationId (first'.date.take 4) (first' :: rest'), ?_, ?_, rfl, ?_, ?_, rfl, rfl,
        ?_⟩
      · rw [checkDataValid_cons lib w stationId first rest hd]
      · rw [checkDataValid_cons lib w stationId first' rest' hd']
      · rw [hrow]
        rfl
      · intro f
        rw [hrow, summaryRow_countOf, summaryRow_countOf]
      · intro hy
        have hy' : first.date.take 4 = first'.date.take 4 := hy
        rw [checkDataValid_cons lib w stationId first rest hd,
          checkDataValid_cons lib w stationId first' rest' hd', hy', hrow, hperm.length_eq]

/-- Witness for C9: the two records of January 1997 in both orders give the same run. -/
theorem checkDataValid_perm_witness :
    checkDataValid refLib ⟨[], []⟩ (ascii "010010-99999") [recAllMissing, recTemp50] =
      checkDataValid refLib ⟨[], []⟩ (ascii "010010-99999") [recTemp50, recAllMissing] := by
  obtain ⟨row, row', _, _, _, _, _, h1, h2, h⟩ :=
    checkDataValid_perm refLib ⟨[], []⟩ (ascii "010010-99999") [recAllMissing, recTemp50]
      [recTemp50, recAllMissing] (List.Perm.swap _ _ _) (by simp)
      (by
        intro r hr
        simp only [List.mem_cons, List.mem_singleton, List.not_mem_nil, or_false] at hr
        rcases hr with rfl | rfl
        · exact ⟨.ofBytes lineAllMissing, parseLine_lineAllMissing⟩
        · exact ⟨.ofBytes lineTemp50, parseLine_lineTemp50⟩)
  apply h
  have e1 : row.year = ascii "1997" := (Option.some.inj h1).symm.trans (by decide)
  have e2 : row'.year = ascii "1997" := (Option.some.inj h2).symm.trans (by decide)
  rw [e1, e2]


/-! ### The station file -/

theorem matchDigits_append (a rest : Bytes) (h : ∀ b ∈ a, isDigit b = true) :
    matchDigits a.length (a ++ rest) = some (a, rest) := by
  induction a with
  | nil => cases rest <;> rfl
  | cons b a ih =>
    have hb : isDigit b = true := h b (List.mem_cons_self _ _)
    have ih' := ih (fun c hc => h c (List.mem_cons_of_mem _ hc))
    simp only [List.length_cons, List.cons_append, matchDigits, hb, if_true]
    rw [show a.append rest = a ++ rest from rfl, ih']

theorem matchLiteral_append (lit rest : Bytes) : matchLiteral lit (lit ++ rest) = some rest := by
  unfold matchLiteral
  have hp : lit.isPrefixOf (lit ++ rest) = true :=
    List.isPrefixOf_iff_prefix.2 (List.prefix_append _ _)
  rw [if_pos hp, List.drop_left]

theorem filenameReFind_of_pattern (name : Bytes) (h : IsStationFileName name) :
    ∃ year, filenameReFind name = some [name, name.take 12, year] := by
  obtain ⟨station, wban, year, hname, h6, h5, h4, hs, hw, hy⟩ := h
  have e1 : matchDigits 6 name =
      some (station, ascii "-" ++ (wban ++ (ascii "-" ++ (year ++ ascii ".op")))) := by
    rw [hname, ← h6]
    simp only [List.append_assoc]
    exact matchDigits_append _ _ hs
  have e3 : matchDigits 5 (wban ++ (ascii "-" ++ (year ++ ascii ".op"))) =
      some (wban, ascii "-" ++ (year ++ ascii ".op")) := by
    rw [← h5]
    exact matchDigits_append _ _ hw
  have e5 : matchDigits 4 (year ++ ascii ".op") = some (year, ascii ".op") := by
    rw [← h4]
    exact matchDigits_append _ _ hy
  have e6 : matchLiteral (ascii ".op") (ascii ".op") = some [] := by
    have := matchLiteral_append (ascii ".op") []
    rwa [List.append_nil] at this
  have hn2 : name = (station ++ ascii "-" ++ wban) ++ (ascii "-" ++ (year ++ ascii ".op")) := by
    rw [hname]
    simp only [List.append_assoc]
  have ht : name.take 12 = station ++ ascii "-" ++ wban := by
    rw [hn2]
    apply List.take_left'
    simp only [List.length_append, h6, h5]
    decide
  refine ⟨year, ?_⟩
  unfold filenameReFind
  simp only [e1, matchLiteral_append, e3, e5, e6, if_true, ht]

theorem retain_rows (lib : Lib) (w : World) (file : File) (dataDir : Bytes) (count : Int) :
    (retain lib w file dataDir count).1.rows = w.rows := by
  unfold retain
  split
  · simp only
    split <;> rfl
  · rfl

theorem retain_writes (lib : Lib) (w : World) (file : File) (dataDir : Bytes) (count : Int) :
    (retain lib w file dataDir count).1.writes =
      if 350 < count then
        w.writes ++ [{ path := lib.join dataDir file.name, data := file.data.bytes, perm := 0o440 }]
      else w.writes := by
  unfold retain
  by_cases h : count > 350
  · have h' : 350 < count := h
    simp only [h, h', if_true]
    split <;> rfl
  · have h' : ¬ 350 < count := h
    simp only [h, h', if_false]

theorem auditAndRetain_rows (lib : Lib) (w : World) (file : File) (dataDir stationId : Bytes)
    (records : List Line) :
    (auditAndRetain lib w file dataDir stationId records).1.rows =
      (checkDataValid lib w stationId records).1.rows := by
  unfold auditAndRetain
  rcases hc : checkDataValid lib w stationId records with ⟨w', res⟩
  cases res with
  | error e => rfl
  | ok count => exact retain_rows lib w' file dataDir count

theorem skip_iff_not_dataLine (line : ByteSlice) :
    (line.bytes.length = 0 ∨ (ascii "STN--- WBAN").isPrefixOf line.bytes = true) ↔
      isDataLine line = false := by
  unfold isDataLine
  rw [List.length_eq_zero, List.isPrefixOf_iff_prefix, decide_eq_false_iff_not]
  tauto

theorem parseRecords_eq_ok_iff (lib : Lib) (lines : List ByteSlice) :
    ∀ acc out : List Line,
      parseRecords lib lines acc = .ok out ↔
        ∃ records, out = acc ++ records ∧
          List.Forall₂ (fun line r => parseLine lib line = .ok r)
            (lines.filter isDataLine) records := by
  induction lines with
  | nil =>
    intro acc out
    simp only [parseRecords, List.filter_nil, List.forall₂_nil_left_iff, Except.ok.injEq]
    constructor
    · rintro rfl
      exact ⟨[], by simp, rfl⟩
    · rintro ⟨records, h, rfl⟩
      simpa using h.symm
  | cons line rest ih =>
    intro acc out
    by_cases hskip : line.bytes.length = 0 ∨ (ascii "STN--- WBAN").isPrefixOf line.bytes = true
    · have hf : isDataLine line = false := (skip_iff_not_dataLine line).1 hskip
      rw [parseRecords, if_pos hskip, List.filter_cons_of_neg (by simp [hf])]
      exact ih acc out
    · have hf : isDataLine line = true := by
        cases h : isDataLine line
        · exact absurd ((skip_iff_not_dataLine line).2 h) hskip
        · rfl
      rw [parseRecords, if_neg hskip, List.filter_cons_of_pos hf]
      cases hp : parseLine lib line with
      | error e =>
        simp only [List.forall₂_cons_left_iff, hp, reduceCtorEq, false_and, exists_false,
          and_false]
      | ok r =>
        show parseRecords lib rest (acc ++ [r]) = .ok out ↔ _
        rw [ih]
        constructor
        · rintro ⟨records, h1, h2⟩
          exact ⟨r :: records, by simp [h1], List.Forall₂.cons hp h2⟩
        · rintro ⟨records, h1, h2⟩
          cases h2 with
          | cons hr h2' =>
            rw [hp] at hr
            cases hr
            exact ⟨_, by simp [h1], h2'⟩

theorem parseRecords_of_forall₂ (lib : Lib) (blob : ByteSlice) (records : List Line)
    (h : List.Forall₂ (fun line r => parseLine lib line = .ok r) (dataLines blob) records) :
    parseRecords lib (bytesSplit blob 10) [] = .ok records :=
  (parseRecords_eq_ok_iff lib _ [] records).2 ⟨records, rfl, h⟩

theorem saveStation_of_groups (lib : Lib) (w : World) (file : File) (dataDir stationId : Bytes)
    (records : List Line)
    (hsid : (filenameReFind file.name).bind (fun groups => groups.get? 1) = some stationId)
    (hp : parseRecords lib (bytesSplit file.data 10) [] = .ok records) :
    saveStation lib w file dataDir = auditAndRetain lib w file dataDir stationId records := by
  unfold saveStation
  cases hg : filenameReFind file.name with
  | none =>
    rw [hg] at hsid
    cases hsid
  | some groups =>
    rw [hg] at hsid
    have hsid' : groups.get? 1 = some stationId := hsid
    simp only [hsid', hp]

theorem stationId_of_pattern (name : Bytes) (h : IsStationFileName name) :
    (filenameReFind name).bind (fun groups => groups.get? 1) = some (name.take 12) := by
  obtain ⟨year, hy⟩ := filenameReFind_of_pattern name h
  rw [hy]
  rfl

theorem saveStation_of_parsed (lib : Lib) (w : World) (file : File) (dataDir : Bytes)
    (records : List Line) (hname : IsStationFileName file.name)
    (hp : parseRecords lib (bytesSplit file.data 10) [] = .ok records) :
    saveStation lib w file dataDir =
      auditAndRetain lib w file dataDir (file.name.take 12) records :=
  saveStation_of_groups lib w file dataDir _ records (stationId_of_pattern file.name hname) hp

theorem saveStation_of_parse_error (lib : Lib) (w : World) (file : File) (dataDir : Bytes)
    (e : Abort) (hname : IsStationFileName file.name)
    (hp : parseRecords lib (bytesSplit file.data 10) [] = .error e) :
    saveStation lib w file dataDir = (w, .error e) := by
  obtain ⟨year, hy⟩ := filenameReFind_of_pattern file.name hname
  unfold saveStation
  simp only [hy, hp, List.get?]

theorem splitPieces_ne_nil (sep : UInt8) (spare s : Bytes) : splitPieces sep spare s ≠ [] := by
  cases s with
  | nil => simp [splitPieces]
  | cons b s =>
    unfold splitPieces
    split
    · simp
    · split <;> simp

theorem splitPieces_intercalate (sep : UInt8) (spare s : Bytes) :
    List.intercalate [sep] ((splitPieces sep spare s).map ByteSlice.bytes) = s := by
  induction s with
  | nil => rfl
  | cons b s ih =>
    unfold splitPieces
    by_cases hb : b = sep
    · rw [if_pos hb]
      cases hs : splitPieces sep spare s with
      | nil => exact absurd hs (splitPieces_ne_nil sep spare s)
      | cons piece pieces =>
        rw [hs] at ih
        rw [← ih, hb]
        simp [List.intercalate, List.intersperse]
    · rw [if_neg hb]
      cases hs : splitPieces sep spare s with
      | nil => exact absurd hs (splitPieces_ne_nil sep spare s)
      | cons piece pieces =>
        rw [hs] at ih
        rw [← ih]
        cases pieces <;> simp [List.intercalate, List.intersperse]

theorem splitPieces_no_sep (sep : UInt8) (spare s : Bytes) :
    ∀ piece ∈ splitPieces sep spare s, sep ∉ piece.bytes := by
  induction s with
  | nil => simp [splitPieces]
  | cons b s ih =>
    unfold splitPieces
    by_cases hb : b = sep
    · rw [if_pos hb]
      intro piece hp
      rcases List.mem_cons.1 hp with rfl | hp
      · simp
      · exact ih piece hp
    · rw [if_neg hb]
      cases hs : splitPieces sep spare s with
      | nil => exact absurd hs (splitPieces_ne_nil sep spare s)
      | cons p ps =>
        rw [hs] at ih
        intro piece hp
        rcases List.mem_cons.1 hp with rfl | hp
        · intro hm
          rcases List.mem_cons.1 hm with h | h
          · exact hb h.symm
          · exact ih p (List.mem_cons_self _ _) h
        · exact ih piece (List.mem_cons_of_mem _ hp)

theorem splitPieces_spare (sep : UInt8) (spare s : Bytes) :
    ∃ pieces last, splitPieces sep spare s = pieces ++ [last] ∧ last.spare = spare ∧
      ∀ piece ∈ pieces, piece.spare = [] := by
  induction s with
  | nil => exact ⟨[], ⟨[], spare⟩, rfl, rfl, by simp⟩
  | cons b s ih =>
    obtain ⟨pieces, last, hsplit, hlast, hall⟩ := ih
    unfold splitPieces
    by_cases hb : b = sep
    · rw [if_pos hb, hsplit]
      refine ⟨⟨[], []⟩ :: pieces, last, rfl, hlast, ?_⟩
      intro piece hp
      rcases List.mem_cons.1 hp with rfl | hp
      · rfl
      · exact hall piece hp
    · rw [if_neg hb, hsplit]
      cases pieces with
      | nil => exact ⟨[], ⟨b :: last.bytes, last.spare⟩, rfl, hlast, by simp⟩
      | cons p ps =>
        refine ⟨⟨b :: p.bytes, p.spare⟩ :: ps, last, rfl, hlast, ?_⟩
        intro piece hp
        rcases List.mem_cons.1 hp with rfl | hp
        · exact hall p (List.mem_cons_self _ _)
        · exact hall piece (List.mem_cons_of_mem _ hp)

theorem splitPieces_append_sep (sep : UInt8) (spare l rest : Bytes) (h : sep ∉ l) :
    splitPieces sep spare (l ++ sep :: rest) = .ofBytes l :: splitPieces sep spare rest := by
  induction l with
  | nil => simp [splitPieces, ByteSlice.ofBytes]
  | cons b l ih =>
    have hb : b ≠ sep := fun hb => h (hb ▸ List.mem_cons_self _ _)
    have ih' := ih (fun hm => h (List.mem_cons_of_mem _ hm))
    simp only [List.cons_append, splitPieces, hb, if_false]
    rw [show l.append (sep :: rest) = l ++ sep :: rest from rfl, ih']
    rfl

theorem bytesSplit_repeatBlob (line : Bytes) (n : Nat) (h : (10 : UInt8) ∉ line) :
    bytesSplit (.ofBytes (repeatBlob line n)) 10
      = List.replicate n (.ofBytes line) ++ [.ofBytes []] := by
  unfold bytesSplit
  induction n with
  | zero => rfl
  | succ n ih =>
    have ih' : splitPieces 10 [] (repeatBlob line n)
        = List.replicate n (.ofBytes line) ++ [.ofBytes []] := ih
    show splitPieces 10 [] (line ++ 10 :: repeatBlob line n) = _
    rw [splitPieces_append_sep 10 [] line _ h, ih', List.replicate_succ, List.cons_append]

theorem dataLines_repeatBlob (line : Bytes) (n : Nat) (h : (10 : UInt8) ∉ line)
    (hd : isDataLine (.ofBytes line) = true) :
    dataLines (.ofBytes (repeatBlob line n)) = List.replicate n (.ofBytes line) := by
  unfold dataLines
  rw [bytesSplit_repeatBlob line n h, List.filter_append, List.filter_replicate_of_pos hd]
  simp [isDataLine, ByteSlice.ofBytes]

theorem forall₂_replicate (lib : Lib) (line : ByteSlice) (r : Line) (n : Nat)
    (hp : parseLine lib line = .ok r) :
    List.Forall₂ (fun line r => parseLine lib line = .ok r)
      (List.replicate n line) (List.replicate n r) := by
  induction n with
  | zero => exact List.Forall₂.nil
  | succ n ih =>
    rw [List.replicate_succ, List.replicate_succ]
    exact List.Forall₂.cons hp ih

theorem parseRecords_repeatBlob (lib : Lib) (line : Bytes) (r : Line) (n : Nat)
    (h : (10 : UInt8) ∉ line) (hd : isDataLine (.ofBytes line) = true)
    (hp : parseLine lib (.ofBytes line) = .ok r) :
    parseRecords lib (bytesSplit (.ofBytes (repeatBlob line n)) 10) []
      = .ok (List.replicate n r) := by
  apply parseRecords_of_forall₂
  rw [dataLines_repeatBlob line n h hd]
  exact forall₂_replicate lib (.ofBytes line) r n hp

theorem isStationFileName_sampleName : IsStationFileName sampleName :=
  ⟨ascii "010010", ascii "99999", ascii "1997", by decide, by decide, by decide, by decide,
    by decide, by decide, by decide⟩

set_option maxRecDepth 100000 in
theorem dataLines_sampleFile :
    dataLines sampleFile.data = [.ofBytes lineAllMissing, .ofBytes lineTemp50] := by
  decide

theorem forall₂_sampleFile :
    List.Forall₂ (fun line r => parseLine refLib line = .ok r) (dataLines sampleFile.data)
      [recAllMissing, recTemp50] := by
  rw [dataLines_sampleFile]
  exact List.Forall₂.cons parseLine_lineAllMissing
    (List.Forall₂.cons parseLine_lineTemp50 List.Forall₂.nil)

set_option maxRecDepth 100000 in
theorem lineAllMissing_facts :
    (10 : UInt8) ∉ lineAllMissing ∧ isDataLine (.ofBytes lineAllMissing) = true := by
  decide

theorem saveStation_rows_of_parsed (lib : Lib) (w : World) (file : File) (dataDir : Bytes)
    (first : Line) (rest : List Line) (hname : IsStationFileName file.name)
    (hp : parseRecords lib (bytesSplit file.data 10) [] = .ok (first :: rest))
    (hd : 4 ≤ first.date.length) :
    (saveStation lib w file dataDir).1.rows =
      w.rows ++ [summaryRow (file.name.take 12) (first.date.take 4) (first :: rest)] := by
  rw [saveStation_of_parsed lib w file dataDir _ hname hp, auditAndRetain_rows,
    checkDataValid_cons lib w _ first rest hd]

/-- C2: when `saveStation` finds the station identifier, the lines of the file parse and the
audit returns a total, the only new file write of `saveStation` is that of the raw blob, and it
is issued exactly when the total is greater than 350. -/
theorem saveStation_retains_iff (lib : Lib) (w w' : World) (file : File)
    (dataDir stationId : Bytes) (records : List Line) (total : Int)
    (hsid : (filenameReFind file.name).bind (fun groups => groups.get? 1) = some stationId)
    (hparse : parseRecords lib (bytesSplit file.data 10) [] = .ok records)
    (haudit : checkDataValid lib w stationId records = (w', .ok total)) :
    (saveStation lib w file dataDir).1.writes =
      if 350 < total then
        w.writes ++ [{ path := lib.join dataDir file.name, data := file.data.bytes, perm := 0o440 }]
      else w.writes := by
  have hw : w'.writes = w.writes := by
    have := checkDataValid_writes lib w stationId records
    rwa [haudit] at this
  rw [saveStation_of_groups lib w file dataDir stationId records hsid hparse]
  unfold auditAndRetain
  rw [haudit]
  simp only
  rw [retain_writes, hw]

/-- Witness for C2: a file of 351 data lines is kept, a file of 350 data lines is not. -/
theorem saveStation_retains_iff_witness :
    (saveStation refLib ⟨[], []⟩ (blobFile 351) (ascii "data")).1.writes
      = [{ path := ascii "data/010010-99999-1997.op", data := repeatBlob lineAllMissing 351,
           perm := 288 }] ∧
    (saveStation refLib ⟨[], []⟩ (blobFile 350) (ascii "data")).1.writes = [] := by
  have hparse : ∀ n, parseRecords refLib (bytesSplit (.ofBytes (repeatBlob lineAllMissing n)) 10) []
      = .ok (List.replicate n recAllMissing) := fun n =>
    parseRecords_repeatBlob refLib lineAllMissing recAllMissing n lineAllMissing_facts.1
      lineAllMissing_facts.2 parseLine_lineAllMissing
  have haudit : ∀ n : Nat, checkDataValid refLib ⟨[], []⟩ (sampleName.take 12)
      (List.replicate (n + 1) recAllMissing) =
        (⟨[summaryRow (sampleName.take 12) (ascii "1997")
            (List.replicate (n + 1) recAllMissing)], []⟩, .ok (toInt16 ((n + 1 : Nat) : Int))) := by
    intro n
    rw [List.replicate_succ, checkDataValid_cons refLib _ _ _ _ (by decide), List.length_cons,
      List.length_replicate]
    rfl
  constructor
  · rw [saveStation_retains_iff refLib ⟨[], []⟩ _ (blobFile 351)
      (ascii "data") _ _ _ (stationId_of_pattern _ isStationFileName_sampleName) (hparse 351)
      (haudit 350),
      if_pos (by decide)]
    rfl
  · rw [saveStation_retains_iff refLib ⟨[], []⟩ _ (blobFile 350)
      (ascii "data") _ _ _ (stationId_of_pattern _ isStationFileName_sampleName) (hparse 350)
      (haudit 349),
      if_neg (by decide)]

/-- C3, within the range of `int16`: when `saveStation` finds the station identifier and the
non-empty lines of the blob that do not begin with `STN--- WBAN` parse, in their order, to
`records`, then `saveStation` hands exactly `records` to the audit; and when there are between
1 and 32767 such lines, the total of the row written is their number. -/
theorem saveStation_batch (lib : Lib) (w : World) (file : File) (dataDir stationId : Bytes)
    (records : List Line)
    (hsid : (filenameReFind file.name).bind (fun groups => groups.get? 1) = some stationId)
    (hrec : List.Forall₂ (fun line r => parseLine lib line = .ok r)
      (dataLines file.data) records) :
    saveStation lib w file dataDir = auditAndRetain lib w file dataDir stationId records ∧
    (1 ≤ (dataLines file.data).length → (dataLines file.data).length ≤ 32767 →
      ∃ row, (saveStation lib w file dataDir).1.rows = w.rows ++ [row] ∧
        row.count = ((dataLines file.data).length : Int)) := by
  have hp := parseRecords_of_forall₂ lib file.data records hrec
  have hs := saveStation_of_groups lib w file dataDir stationId records hsid hp
  refine ⟨hs, ?_⟩
  intro h1 h2
  rw [hrec.length_eq] at h1 h2 ⊢
  cases records with
  | nil => simp at h1
  | cons first rest =>
    have hd : 4 ≤ first.date.length := by
      cases hdl : dataLines file.data with
      | nil =>
        rw [hdl] at hrec
        cases hrec
      | cons line lines =>
        rw [hdl] at hrec
        cases hrec with
        | cons hline _ =>
          rw [parseLine_date_length lib line first hline]
          omega
    refine ⟨summaryRow stationId (first.date.take 4) (first :: rest), ?_, ?_⟩
    · rw [hs, auditAndRetain_rows, checkDataValid_cons lib w _ first rest hd]
    · exact toInt16_of_range _ (by omega) (by omega)

/-- Witness for C3: the file of a header line and two data lines hands the two parsed
records to the audit and writes a row of total 2. -/
theorem saveStation_batch_witness :
    dataLines sampleFile.data = [.ofBytes lineAllMissing, .ofBytes lineTemp50] ∧
    saveStation refLib ⟨[], []⟩ sampleFile (ascii "data") =
      auditAndRetain refLib ⟨[], []⟩ sampleFile (ascii "data") (ascii "010010-99999")
        [recAllMissing, recTemp50] ∧
    ∃ row, (saveStation refLib ⟨[], []⟩ sampleFile (ascii "data")).1.rows = [row] ∧
      row.count = 2 := by
  have h := saveStation_batch refLib ⟨[], []⟩ sampleFile (ascii "data") (ascii "010010-99999")
    [recAllMissing, recTemp50] (stationId_of_pattern _ isStationFileName_sampleName)
    forall₂_sampleFile
  refine ⟨dataLines_sampleFile, h.1, ?_⟩
  obtain ⟨row, hr, hc⟩ := h.2 (by rw [dataLines_sampleFile]; decide)
    (by rw [dataLines_sampleFile]; decide)
  refine ⟨row, hr, ?_⟩
  rw [hc, dataLines_sampleFile]
  rfl

/-- C3 fails beyond the range of `int16`: a blob of 32768 data lines has 32768 remaining
lines, and the total of the row written is -32768. -/
theorem saveStation_total_wraps :
    (dataLines (blobFile 32768).data).length = 32768 ∧
    (saveStation refLib ⟨[], []⟩ (blobFile 32768) (ascii "data")).1.rows.map Row.count
      = [-32768] := by
  have hp := parseRecords_repeatBlob refLib lineAllMissing recAllMissing 32768
    lineAllMissing_facts.1 lineAllMissing_facts.2 parseLine_lineAllMissing
  have hrep : List.replicate 32768 recAllMissing
      = recAllMissing :: List.replicate 32767 recAllMissing := rfl
  have ht : toInt16 (((recAllMissing :: List.replicate 32767 recAllMissing).length : Nat) : Int)
      = -32768 := by
    rw [List.length_cons, List.length_replicate]
    rfl
  rw [hrep] at hp
  constructor
  · show (dataLines (.ofBytes (repeatBlob lineAllMissing 32768))).length = 32768
    rw [dataLines_repeatBlob lineAllMissing 32768 lineAllMissing_facts.1 lineAllMissing_facts.2,
      List.length_replicate]
  · rw [saveStation_rows_of_parsed refLib ⟨[], []⟩ (blobFile 32768)
      (ascii "data") recAllMissing (List.replicate 32767 recAllMissing)
      isStationFileName_sampleName hp (by decide)]
    simp only [List.nil_append, List.map_cons, List.map_nil, summaryRow, ht]

/-- C10 as stated fails: for the file name `010010-99999-1997.op` the station identifier
written to the sink is `010010-99999`, which has 12 bytes, not the leading 11 bytes
`010010-9999`. -/
theorem stationId_is_not_eleven_bytes :
    IsStationFileName sampleName ∧
    (saveStation refLib ⟨[], []⟩ sampleFile (ascii "data")).1.rows.map Row.station_id
      = [ascii "010010-99999"] ∧
    sampleName.take 11 = ascii "010010-9999" ∧
    ascii "010010-99999" ≠ sampleName.take 11 := by
  refine ⟨isStationFileName_sampleName, ?_, by decide, by decide⟩
  rw [saveStation_rows_of_parsed refLib ⟨[], []⟩ sampleFile (ascii "data") recAllMissing
    [recTemp50] isStationFileName_sampleName
    (parseRecords_of_forall₂ refLib _ _ forall₂_sampleFile) (by decide)]
  decide

/-- C10, amended: for a file name of the station file pattern, the first group of the
regular expression is the leading 12 bytes of the name; `saveStation` passes them to the
audit as station identifier, and every row it writes to the sink carries them. -/
theorem saveStation_stationId (lib : Lib) (w : World) (file : File) (dataDir : Bytes)
    (hname : IsStationFileName file.name) :
    (filenameReFind file.name).bind (fun groups => groups.get? 1) = some (file.name.take 12) ∧
    (file.name.take 12).length = 12 ∧
    (∀ records, parseRecords lib (bytesSplit file.data 10) [] = .ok records →
      saveStation lib w file dataDir =
        auditAndRetain lib w file dataDir (file.name.take 12) records) ∧
    ((saveStation lib w file dataDir).1.rows = w.rows ∨
      ∃ row, (saveStation lib w file dataDir).1.rows = w.rows ++ [row] ∧
        row.station_id = file.name.take 12) := by
  obtain ⟨year, hy⟩ := filenameReFind_of_pattern file.name hname
  refine ⟨by rw [hy]; rfl, ?_, fun records hp => saveStation_of_parsed lib w file dataDir
    records hname hp, ?_⟩
  · obtain ⟨station, wban, yr, hn, h6, h5, h4, _⟩ := hname
    rw [List.length_take, hn]
    simp only [List.length_append, h6, h5, h4]
    decide
  · cases hp : parseRecords lib (bytesSplit file.data 10) [] with
    | error e =>
      rw [saveStation_of_parse_error lib w file dataDir e hname hp]
      exact Or.inl rfl
    | ok records =>
      rw [saveStation_of_parsed lib w file dataDir records hname hp, auditAndRetain_rows]
      exact checkDataValid_rows lib w (file.name.take 12) records

/-- Witness for C10: for `010010-99999-1997.op` the first group is `010010-99999`. -/
theorem saveStation_stationId_witness :
    (filenameReFind sampleName).bind (fun groups => groups.get? 1)
      = some (ascii "010010-99999") :=
  (saveStation_stationId refLib ⟨[], []⟩ sampleFile (ascii "data")
    isStationFileName_sampleName).1

end Gsod
